import Mathlib

/-!
Shallow embedding of the multi-engine audit core of check_app_engaccpy.py
(roll-delivery document audit): the item classifier, the spec parser and
dimensional audit engine, the accounting reconciliation engine, the
process/traceability engine, the header checker and the issue consolidator.

Modeling conventions:
* Python floats are modeled as rational numbers; every numeric literal that
  occurs in the source is an exact decimal, and the embedded arithmetic is
  exact rational arithmetic.
* Python dict evidence rows are association lists from string keys to cells.
* The external rule table (rules.xlsx) and the string-similarity scores of
  the thefuzz library are passed to each engine as parameters, mirroring the
  external-interface boundary of the system; an unavailable rule table is the
  empty list, and dict iteration order is the insertion order of the list.
* Python exceptions escaping a function are modeled with Except; a TypeError
  raised by arithmetic on incompatible operands is PyErr.typeError.
* Recursive scanners take an explicit fuel argument (always instantiated with
  the length of the scanned character list, which each step strictly
  decreases), so that every definition is structurally recursive and
  evaluates inside the kernel.
-/

set_option maxRecDepth 100000

attribute [local semireducible] Rat.add Rat.sub Rat.mul Rat.inv Rat.ofScientific

namespace RollAudit

/-- Prefix test on character lists. -/
def isPref : List Char → List Char → Bool
  | [], _ => true
  | _ :: _, [] => false
  | a :: as, b :: bs => a = b && isPref as bs

/-- Occurrence test of a needle anywhere in a haystack (character lists). -/
def infixAt : List Char → List Char → Bool
  | n, [] => isPref n []
  | n, c :: rest => isPref n (c :: rest) || infixAt n rest

/-- Python membership test on strings: needle in hay. -/
def strContains (hay needle : String) : Bool := infixAt needle.data hay.data

/-- Test whether any keyword of a list occurs in a string. -/
def anyKw (hay : String) (kws : List String) : Bool := kws.any (fun k => strContains hay k)

/-- Fueled worker for pyReplace, consuming at least one character per step. -/
def replaceCore (pat rep : List Char) : ℕ → List Char → List Char
  | _, [] => []
  | 0, s => s
  | fuel + 1, c :: rest =>
    if pat ≠ [] ∧ isPref pat (c :: rest) then
      rep ++ replaceCore pat rep fuel ((c :: rest).drop pat.length)
    else c :: replaceCore pat rep fuel rest

/-- Python str.replace: replace all occurrences, scanning left to right. -/
def pyReplace (s pat rep : String) : String :=
  ⟨replaceCore pat.data rep.data s.data.length s.data⟩

/-- Python str.upper (ASCII; CJK characters are unaffected, as in the data). -/
def pyUpper (s : String) : String := ⟨s.data.map Char.toUpper⟩

/-- Python str.lower (ASCII). -/
def pyLower (s : String) : String := ⟨s.data.map Char.toLower⟩

/-- ASCII whitespace recognized by Python str.strip and the regex class \s. -/
def isSpaceCh (c : Char) : Bool :=
  c = ' ' || c = '\t' || c = '\n' || c = '\r' || c = '\x0b' || c = '\x0c'

/-- Python str.strip with no argument. -/
def pyStrip (s : String) : String :=
  ⟨((s.data.dropWhile isSpaceCh).reverse.dropWhile isSpaceCh).reverse⟩

/-- ASCII digit test (the regex class \d on the data handled by the program). -/
def isDig (c : Char) : Bool := '0' ≤ c && c ≤ '9'

/-- Numeric value of an ASCII digit character. -/
def digVal (c : Char) : ℕ := c.toNat - 48

/-- Natural number denoted by a list of digit characters. -/
def digitsToNat (l : List Char) : ℕ := l.foldl (fun a c => a * 10 + digVal c) 0

/-- Fueled worker for pySplit. -/
def splitCore (sep : List Char) : ℕ → List Char → List Char → List String
  | _, acc, [] => [⟨acc.reverse⟩]
  | 0, acc, rest => [⟨acc.reverse ++ rest⟩]
  | fuel + 1, acc, c :: rest =>
    if sep ≠ [] ∧ isPref sep (c :: rest) then
      (⟨acc.reverse⟩ : String) :: splitCore sep fuel [] ((c :: rest).drop sep.length)
    else splitCore sep fuel (c :: acc) rest

/-- Python str.split with a literal nonempty separator. -/
def pySplit (s sep : String) : List String := splitCore sep.data s.data.length [] s.data

/-- Python sep.join on a list of strings. -/
def joinSep (sep : String) : List String → String
  | [] => ""
  | [x] => x
  | x :: y :: rest => x ++ sep ++ joinSep sep (y :: rest)

/-- Python min over a nonempty float list (0 as a dummy on the empty list). -/
def qListMin : List ℚ → ℚ
  | [] => 0
  | x :: rest => rest.foldl (fun a b => if b < a then b else a) x

/-- Python max over a nonempty float list (0 as a dummy on the empty list). -/
def qListMax : List ℚ → ℚ
  | [] => 0
  | x :: rest => rest.foldl (fun a b => if a < b then b else a) x

/-- Python min with key |x - v|: the first element of minimal distance to v. -/
def argminDist (v : ℚ) : List ℚ → ℚ
  | [] => 0
  | x :: rest => rest.foldl (fun a b => if |b - v| < |a - v| then b else a) x

/-- Fueled digit expansion of a positive natural number, most significant first. -/
def natDigitsAux : ℕ → ℕ → List Char
  | 0, _ => []
  | fuel + 1, n => if n = 0 then [] else natDigitsAux fuel (n / 10) ++ [Char.ofNat (48 + n % 10)]

/-- Decimal rendering of a natural number. -/
def natToStr (n : ℕ) : String := if n = 0 then "0" else ⟨natDigitsAux (n + 1) n⟩

/-- Decimal rendering of an integer. -/
def intToStr (i : ℤ) : String := if i < 0 then "-" ++ natToStr i.natAbs else natToStr i.natAbs

/-- Powers of ten. -/
def natPow10 : ℕ → ℕ
  | 0 => 1
  | k + 1 => 10 * natPow10 k

/-- Smallest exponent k (up to the fuel) with q * 10 ^ k integral. -/
def pow10ExpAux : ℕ → ℚ → ℕ → Option ℕ
  | 0, _, _ => none
  | fuel + 1, q, k => if q.den = 1 then some k else pow10ExpAux fuel (q * 10) (k + 1)

/-- Smallest exponent k with q * 10 ^ k integral, when one exists below 60. -/
def pow10Exp (q : ℚ) : Option ℕ := pow10ExpAux 60 q 0

/-- Left-pad the decimal rendering of n with zeros to k digits. -/
def padFrac (n k : ℕ) : String :=
  let s := natToStr n
  ⟨List.replicate (k - s.length) '0' ++ s.data⟩

/-- Python repr of a float, for values with a terminating decimal expansion
(the only values the program interpolates into messages); a non-terminating
value falls back to a fraction rendering, which no theorem below relies on. -/
def pyFloatRepr (q : ℚ) : String :=
  match pow10Exp q with
  | none => intToStr q.num ++ "/" ++ natToStr q.den
  | some 0 => intToStr q.num ++ ".0"
  | some k =>
    let sign := if q < 0 then "-" else ""
    let scaled := (|q| * (natPow10 k : ℚ)).num.natAbs
    sign ++ natToStr (scaled / natPow10 k) ++ "." ++ padFrac (scaled % natPow10 k) k

/-- Round half to even, as Python round on a tie-free or tie value. -/
def roundHalfEven (q : ℚ) : ℤ :=
  let f := q.floor
  let frac := q - (f : ℚ)
  if frac < 1 / 2 then f else if 1 / 2 < frac then f + 1 else if f % 2 = 0 then f else f + 1

/-- Python round(x, 4). -/
def pyRound4 (q : ℚ) : ℚ := (roundHalfEven (q * 10000) : ℚ) / 10000

/-! Scanners for the regular expressions used by the engines. Each scanner
follows the Python re semantics: find the leftmost match, with the
backtracking priority order of the pattern, then continue after it. -/

/-- Maximal digit-run prefix and the remaining characters. -/
def digRun : List Char → List Char × List Char
  | [] => ([], [])
  | c :: rest =>
    if isDig c then
      let p := digRun rest
      (c :: p.1, p.2)
    else ([], c :: rest)

/-- Descending count list n, n-1, ..., 0. -/
def downFrom : ℕ → List ℕ
  | 0 => [0]
  | n + 1 => (n + 1) :: downFrom n

/-- Candidate (token, rest) splits of an unsigned number at the start of the
input, in the backtracking priority order of the greedy pattern
digits, optional dot, digits. -/
def numCands (cs : List Char) : List (List Char × List Char) :=
  let p := digRun cs
  if p.1 = [] then [] else
  let dotCands :=
    match p.2 with
    | '.' :: r2 =>
      let q := digRun r2
      (downFrom q.1.length).map (fun m => (p.1 ++ '.' :: q.1.take m, r2.drop m))
    | _ => []
  let plain := ((downFrom p.1.length).filter (fun j => j ≠ 0)).map
    (fun j => (p.1.take j, cs.drop j))
  dotCands ++ plain

/-- Greedy unsigned-number match at the start of the input. -/
def numGreedy (cs : List Char) : Option (List Char × List Char) := (numCands cs).head?

/-- Fueled findall scan for unsigned numbers. -/
def findNumsCore : ℕ → List Char → List String
  | 0, _ => []
  | _, [] => []
  | fuel + 1, c :: rest =>
    match numGreedy (c :: rest) with
    | some (tok, r) => (⟨tok⟩ : String) :: findNumsCore fuel r
    | none => findNumsCore fuel rest

/-- All unsigned-number tokens of a string, left to right. -/
def findNums (s : String) : List String := findNumsCore s.data.length s.data

/-- Greedy signed-number match at the start of the input: optional sign, then
an unsigned number. -/
def signedGreedy : List Char → Option (List Char × List Char)
  | '-' :: rest => (numGreedy rest).map (fun p => ('-' :: p.1, p.2))
  | '+' :: rest => (numGreedy rest).map (fun p => ('+' :: p.1, p.2))
  | cs => numGreedy cs

/-- Fueled findall scan for signed numbers. -/
def findSignedCore : ℕ → List Char → List String
  | 0, _ => []
  | _, [] => []
  | fuel + 1, c :: rest =>
    match signedGreedy (c :: rest) with
    | some (tok, r) => (⟨tok⟩ : String) :: findSignedCore fuel r
    | none => findSignedCore fuel rest

/-- All signed-number tokens of a string, left to right. -/
def findSigned (s : String) : List String := findSignedCore s.data.length s.data

/-- Match of a number followed by optional whitespace and a lowercase mm
marker at the start of the input, returning the number token (group 1). -/
def mmAt (cs : List Char) : Option (List Char × List Char) :=
  ((numCands cs).filterMap (fun p =>
    match p.2.dropWhile isSpaceCh with
    | 'm' :: 'm' :: r3 => some (p.1, r3)
    | _ => none)).head?

/-- Fueled findall scan for mm-marked numbers. -/
def findMMCore : ℕ → List Char → List String
  | 0, _ => []
  | _, [] => []
  | fuel + 1, c :: rest =>
    match mmAt (c :: rest) with
    | some (tok, r) => (⟨tok⟩ : String) :: findMMCore fuel r
    | none => findMMCore fuel rest

/-- All mm-marked number tokens of a string. -/
def findMM (s : String) : List String := findMMCore s.data.length s.data

/-- Match of the plus-minus pattern at the start of the input: an optional
base number, the ± sign, and an offset number; returns (group 1, group 2). -/
def pmAt (cs : List Char) : Option ((Option String × String) × List Char) :=
  let withBase := (numCands cs).filterMap (fun p =>
    match p.2 with
    | '±' :: r2 =>
      match numGreedy r2 with
      | some q => some ((some (⟨p.1⟩ : String), (⟨q.1⟩ : String)), q.2)
      | none => none
    | _ => none)
  match withBase.head? with
  | some res => some res
  | none =>
    match cs with
    | '±' :: r2 => (numGreedy r2).map (fun q => ((none, (⟨q.1⟩ : String)), q.2))
    | _ => none

/-- Fueled findall scan for plus-minus pairs. -/
def findPMCore : ℕ → List Char → List (Option String × String)
  | 0, _ => []
  | _, [] => []
  | fuel + 1, c :: rest =>
    match pmAt (c :: rest) with
    | some (pr, r) => pr :: findPMCore fuel r
    | none => findPMCore fuel rest

/-- All plus-minus (base, offset) pairs of a string. -/
def findPM (s : String) : List (Option String × String) := findPMCore s.data.length s.data

/-- Characters accepted by the tilde-range separator class. -/
def isTildeCh (c : Char) : Bool := c = '~' || c = '～' || c = '-'

/-- Match of the tilde-range pattern at the start of the input: a number, a
tilde or dash, and a second number. -/
def tildeAt (cs : List Char) : Option ((String × String) × List Char) :=
  ((numCands cs).filterMap (fun p =>
    match p.2 with
    | t :: r2 =>
      if isTildeCh t then
        match numGreedy r2 with
        | some q => some (((⟨p.1⟩ : String), (⟨q.1⟩ : String)), q.2)
        | none => none
      else none
    | [] => none)).head?

/-- Fueled findall scan for tilde-range pairs. -/
def findTildeCore : ℕ → List Char → List (String × String)
  | 0, _ => []
  | _, [] => []
  | fuel + 1, c :: rest =>
    match tildeAt (c :: rest) with
    | some (pr, r) => pr :: findTildeCore fuel r
    | none => findTildeCore fuel rest

/-- All tilde-range (left, right) pairs of a string. -/
def findTilde (s : String) : List (String × String) := findTildeCore s.data.length s.data

/-- First ratio match digits / digits in a string (the search of parse_ratio). -/
def ratioAt (cs : List Char) : Option (ℕ × ℕ) :=
  let p := digRun cs
  if p.1 = [] then none else
  match p.2.dropWhile isSpaceCh with
  | '/' :: r3 =>
    let q := digRun (r3.dropWhile isSpaceCh)
    if q.1 = [] then none else some (digitsToNat p.1, digitsToNat q.1)
  | _ => none

/-- Fueled search scan for the first ratio match. -/
def findRatioCore : ℕ → List Char → Option (ℕ × ℕ)
  | 0, _ => none
  | _, [] => none
  | fuel + 1, c :: rest =>
    match ratioAt (c :: rest) with
    | some r => some r
    | none => findRatioCore fuel rest

/-- First ratio match in a string, when one exists. -/
def findRatio (s : String) : Option (ℕ × ℕ) := findRatioCore s.data.length s.data

/-- Value of an unsigned number token (digits, optional dot, digits). -/
def parseUnsigned (cs : List Char) : ℚ :=
  let p := digRun cs
  match p.2 with
  | '.' :: r2 =>
    let q := digRun r2
    (digitsToNat p.1 : ℚ) + (digitsToNat q.1 : ℚ) / (natPow10 q.1.length : ℚ)
  | _ => (digitsToNat p.1 : ℚ)

/-- Python float() of a signed number token produced by the scanners. -/
def parseTok (s : String) : ℚ :=
  match s.data with
  | '-' :: rest => -(parseUnsigned rest)
  | '+' :: rest => parseUnsigned rest
  | cs => parseUnsigned cs

/-- Python float() of an arbitrary string: accepted when, after stripping
whitespace and an optional sign, the string is digits and at most one dot
with at least one digit (the shapes arising in the audited data; the exotic
literals inf and nan are outside the model). -/
def pyFloat (s : String) : Option ℚ :=
  let t := (pyStrip s).data
  let core := fun (u : List Char) =>
    if u ≠ [] ∧ u.all (fun c => isDig c || c = '.') ∧ u.count '.' ≤ 1 ∧ u.any isDig
    then some (parseUnsigned u) else none
  match t with
  | '-' :: r => (core r).map (fun q => -q)
  | '+' :: r => core r
  | r => core r

/-! Spec parser: split a free-text spec string into segments and read
acceptance intervals out of each segment (python_numerical_audit,
spec-parsing block). -/

/-- Chinese numeral bullets recognized by the segment splitter. -/
def isBulletCh (c : Char) : Bool :=
  c = '一' || c = '二' || c = '三' || c = '四' || c = '五' || c = '六'

/-- Delimiter match at the start of the input for the segment-splitting
pattern: newline or carriage return, a numeral bullet, a parenthesized digit
group, or a semicolon. -/
def splitDelimAt : List Char → Option (List Char)
  | [] => none
  | c :: r =>
    if c = '\n' ∨ c = '\r' then some r
    else if isBulletCh c then some r
    else if c = '(' ∨ c = '（' then
      let p := digRun r
      if p.1 ≠ [] then
        match p.2 with
        | c2 :: r3 => if c2 = ')' ∨ c2 = '）' then some r3 else none
        | [] => none
      else none
    else if c = ';' ∨ c = '；' then some r
    else none

/-- Fueled worker for splitSpec. -/
def splitSpecCore : ℕ → List Char → List Char → List String
  | _, acc, [] => [⟨acc.reverse⟩]
  | 0, acc, rest => [⟨acc.reverse ++ rest⟩]
  | fuel + 1, acc, c :: rest =>
    match splitDelimAt (c :: rest) with
    | some r => (⟨acc.reverse⟩ : String) :: splitSpecCore fuel [] r
    | none => splitSpecCore fuel (c :: acc) rest

/-- Segment split of a spec string (re.split on the delimiter pattern). -/
def splitSpec (s : String) : List String := splitSpecCore s.data.length [] s.data

/-- Per-segment cleaning: drop spaces, newlines and the mm and MM markers,
then strip. -/
def cleanPart (part : String) : String :=
  pyStrip (pyReplace (pyReplace (pyReplace (pyReplace part " " "") "\n" "") "mm" "") "MM" "")

/-- Intervals emitted for the plus-minus matches of a segment: for each match,
base minus offset to base plus offset, the base defaulting to 0. -/
def pmIntervalsOf (l : List (Option String × String)) : List (ℚ × ℚ) :=
  l.map (fun m =>
    let b := match m.1 with | some bs => parseTok bs | none => 0
    let o := parseTok m.2
    (pyRound4 (b - o), pyRound4 (b + o)))

/-- Intervals emitted for the tilde-range matches of a segment that pass the
magnitude guard |a - b| < a * 0.5. -/
def tildeValidOf (l : List (String × String)) : List (ℚ × ℚ) :=
  l.filterMap (fun m =>
    let n1 := parseTok m.1
    let n2 := parseTok m.2
    if |n1 - n2| < n1 * (1 / 2) then
      some (pyRound4 (min n1 n2), pyRound4 (max n1 n2))
    else none)

/-- Accumulation of the fallback branch: tokens with value above 10 become
bases, tokens of magnitude below 10 become offsets, in token order. -/
def splitBO : List ℚ → List ℚ × List ℚ
  | [] => ([], [])
  | v :: rest =>
    let p := splitBO rest
    if v > 10 then (v :: p.1, p.2) else if |v| < 10 then (p.1, v :: p.2) else p

/-- Interval emitted for one base of the fallback branch. -/
def baseInterval (offs : List ℚ) (b : ℚ) : ℚ × ℚ :=
  if offs = [] then (b, b)
  else
    let eps := offs.map (fun o => pyRound4 (b + o))
    let eps := if eps.length = 1 then eps ++ [b] else eps
    (qListMin eps, qListMax eps)

/-- Acceptance intervals read from one raw spec segment, following the
three-branch priority of the source: plus-minus matches first, else valid
tilde ranges, else the base/offset fallback. -/
def processSegment (part : String) : List (ℚ × ℚ) :=
  let c := cleanPart part
  if c = "" then [] else
  let pm := findPM c
  if pm ≠ [] then pmIntervalsOf pm else
  let tl := tildeValidOf (findTilde c)
  if tl ≠ [] then tl else
  let toks := (findSigned c).map parseTok
  if toks = [] then [] else
  let p := splitBO toks
  p.1.map (baseInterval p.2)

/-! Data model shared by the engines. -/

/-- Value cell of a Python dict row: a string or a float. -/
inductive Cell where
  | s (v : String)
  | n (v : ℚ)
deriving DecidableEq

/-- Evidence row: an association list from field names to cells. -/
abbrev Row := List (String × Cell)

/-- Issue record raised by any engine. The Python issues are dicts; the
fields below cover every key the engines write, with the neutral defaults
standing for absent keys. The ruleHits and fuzzThreshold fields carry the
payload of the hidden accounting issue. -/
structure Issue where
  page : String := "?"
  item : String := ""
  issue_type : String := ""
  common_reason : String := ""
  failures : List Row := []
  source : String := ""
  ruleHits : List (String × List Row) := []
  fuzzThreshold : ℕ := 0
deriving DecidableEq

/-- Python values fed to safe_float: absent/null, a JSON number, or a string. -/
inductive PyVal where
  | pnull
  | num (q : ℚ)
  | str (v : String)
deriving DecidableEq

/-- Logic block of an extracted item (the sl field); the pipeline sets lt to
the classifier category before the engines run. -/
structure SL where
  lt : String := ""
  t : ℚ := 0
deriving DecidableEq

/-- Extracted line item consumed by the engines (dimension_data element). -/
structure DimItem where
  page : String := "?"
  item_title : String := ""
  std_spec : String := ""
  category : String := ""
  item_pc_target : PyVal := .num 0
  batch_total_qty : PyVal := .num 0
  ds : String := ""
  sl : SL := {}
deriving DecidableEq

/-! Rule matching shared by the engines: exact key, parenthesis-stripped key,
then the best fuzzy score above the threshold. -/

/-- Drop characters up to and including the first closing parenthesis; the
non-greedy dot of the pattern cannot cross a newline. -/
def dropToClose : ℕ → List Char → Option (List Char)
  | 0, _ => none
  | _, [] => none
  | fuel + 1, c :: rest =>
    if c = ')' ∨ c = '）' then some rest
    else if c = '\n' then none
    else dropToClose fuel rest

/-- Fueled worker for stripParens. -/
def stripParensCore : ℕ → List Char → List Char
  | 0, s => s
  | _, [] => []
  | fuel + 1, c :: rest =>
    if c = '(' ∨ c = '（' then
      match dropToClose rest.length rest with
      | some r2 => stripParensCore fuel r2
      | none => c :: stripParensCore fuel rest
    else c :: stripParensCore fuel rest

/-- Removal of every parenthesized group (re.sub of the non-greedy pattern). -/
def stripParens (s : String) : String := ⟨stripParensCore s.data.length s.data⟩

/-- Dict lookup in an association list (keys assumed distinct, as in a dict). -/
def lookupKey (rules : List (String × α)) (k : String) : Option α :=
  (rules.find? (fun kv => kv.1 == k)).map (fun kv => kv.2)

/-- Best fuzzy hit: strictly above the threshold and strictly above every
earlier score, keeping the first maximum. -/
def fuzzyBest (fz : String → String → ℕ) (thr : ℕ) (rules : List (String × α))
    (t : String) : Option α :=
  (rules.foldl (fun acc kv =>
    let sc := fz kv.1 t
    if sc > thr ∧ sc > acc.1 then (sc, some kv.2) else acc) ((0 : ℕ), (none : Option α))).2

/-- Three-step rule resolution used by the numerical, accounting and process
engines: exact match, parenthesis-stripped match, fuzzy match. -/
def resolveRule (fz : String → String → ℕ) (thr : ℕ) (rules : List (String × α))
    (titleClean : String) : Option α :=
  match lookupKey rules titleClean with
  | some v => some v
  | none =>
    match lookupKey rules (stripParens titleClean) with
    | some v => some v
    | none => fuzzyBest fz thr rules titleClean

/-! Dimensional audit engine (python_numerical_audit). -/

/-- Journal-family keywords used by the threshold and category tests. -/
def journalKws : List String := ["軸頸", "軸頭", "軸位"]

/-- Finishing-family keywords of the range branch. -/
def regenKws : List String := ["再生", "精加工", "研磨", "車修", "組裝", "拆裝", "真圓度"]

/-- Keyword exemptions checked on the uppercased title. -/
def exemptKwsUpper : List String := ["動平衡", "BALANCING", "熱處理", "HEAT"]

/-- Local-rule exemption test on the resolved rule string. -/
def isRuleExemptLocal (uLocal : String) : Bool :=
  strContains (pyUpper uLocal) "SKIP" || strContains (pyUpper uLocal) "EXEMPT" ||
    strContains (pyUpper uLocal) "豁免"

/-- Non-reconditioned threshold: the maximum trusted reference number of at
least 120, with the optional logic threshold as an extra candidate. -/
def unRegenTargetOf (lt cat title : String) (cleanStd : List ℚ) (sT : ℚ) : Option ℚ :=
  if strContains (pyUpper lt) "SKIP" ∨ strContains (pyUpper lt) "EXEMPT" ∨
     strContains lt "豁免" then none
  else if lt = "range" ∨ lt = "max_limit" ∨ lt = "min_limit" then none
  else
    if (lt = "un_regen" ∨ lt = "未再生") ∨
       (strContains (cat ++ title) "未再生" ∧ ¬ anyKw (cat ++ title) journalKws) then
      let cands := cleanStd.filter (fun n => 120 ≤ n)
      let cands := if sT ≠ 0 ∧ 120 ≤ sT then cands ++ [sT] else cands
      if cands = [] then none else some (qListMax cands)
    else none

/-- Python str rendering of the interval list (the t_used of the range branch). -/
def renderRanges (rs : List (ℚ × ℚ)) : String :=
  "[" ++ joinSep ", " (rs.map (fun r =>
    "[" ++ pyFloatRepr r.1 ++ ", " ++ pyFloatRepr r.2 ++ "]")) ++ "]"

/-- Failure verdict for one measurement entry. -/
structure EntryVerdict where
  reason : String
  label : String
  valStr : String
  target : String
deriving DecidableEq

/-- Category branch chain of the per-measurement check, written on the
verdict state (is_passed, reason, rendered t_used): each branch may fail the
entry or leave the entering state, and no branch resets a failed state to
passed. -/
def entryBranch (lt ct : String) (cleanStd : List ℚ) (sRanges : List (ℚ × ℚ))
    (urt : Option ℚ) (isTwoDec isPureInt : Bool) (val : ℚ)
    (st0 : Bool × String × String) : String × (Bool × String × String) :=
  if strContains lt "min_limit" || strContains ct "銲補" then
    ("銲補",
      if ! isPureInt then (false, "應為純整數", st0.2.2)
      else if cleanStd ≠ [] then
        if val < argminDist val cleanStd then
          (false, "數值不足", pyFloatRepr (argminDist val cleanStd))
        else (st0.1, st0.2.1, pyFloatRepr (argminDist val cleanStd))
      else st0)
  else if urt.isSome then
    ("未再生",
      if val ≤ urt.getD 0 then
        if ! isPureInt then (false, "應為整數", pyFloatRepr (urt.getD 0))
        else (st0.1, st0.2.1, pyFloatRepr (urt.getD 0))
      else if ! isTwoDec then (false, "應填兩位小數", pyFloatRepr (urt.getD 0))
      else (st0.1, st0.2.1, pyFloatRepr (urt.getD 0)))
  else if lt = "max_limit" || (anyKw ct journalKws && strContains ct "未再生") then
    ("軸頸(上限)",
      if (if cleanStd ≠ [] then qListMax cleanStd else 0) > 0 then
        if ! isPureInt then
          (false, "應為純整數", pyFloatRepr (if cleanStd ≠ [] then qListMax cleanStd else 0))
        else if val > (if cleanStd ≠ [] then qListMax cleanStd else 0) then
          (false, "超過上限 " ++ pyFloatRepr (if cleanStd ≠ [] then qListMax cleanStd else 0),
           pyFloatRepr (if cleanStd ≠ [] then qListMax cleanStd else 0))
        else (st0.1, st0.2.1, pyFloatRepr (if cleanStd ≠ [] then qListMax cleanStd else 0))
      else (st0.1, st0.2.1, pyFloatRepr (if cleanStd ≠ [] then qListMax cleanStd else 0)))
  else if lt = "range" || (anyKw ct regenKws && ! strContains ct "未再生") then
    ("精加工",
      if ! isTwoDec then (false, "應填兩位小數", st0.2.2)
      else if sRanges ≠ [] then
        if ! sRanges.any (fun r => decide (r.1 ≤ val) && decide (val ≤ r.2)) then
          (false, "不在區間內", renderRanges sRanges)
        else (st0.1, st0.2.1, renderRanges sRanges)
      else st0)
  else ("未知", st0)

/-- Per-measurement check of the dimensional engine. Returns none when the
entry is skipped or passes, and the failure data otherwise. -/
def processEntry (lt cat title : String) (cleanStd : List ℚ) (sRanges : List (ℚ × ℚ))
    (urt : Option ℚ) (valRaw : String) : Option EntryVerdict :=
  if valRaw = "" ∨ valRaw = "N/A" ∨ valRaw = "nan" ∨ valRaw = "M10" then none
  else
    let damaged := strContains valRaw "[!]"
    let parsed : Option (String × ℚ) :=
      if damaged then some ("[!]", -999)
      else
        let vm := findNums valRaw
        let vs := vm.headD valRaw
        (pyFloat vs).map (fun v => (vs, v))
    match parsed with
    | none => none
    | some (valStr, val) =>
      let isTwoDec : Bool := if valStr = "[!]" then true
        else strContains valStr "." && ((pySplit valStr ".").getLastD "").length == 2
      let isPureInt : Bool := if valStr = "[!]" then true else ! strContains valStr "."
      let st0 : Bool × String × String :=
        if damaged then (false, "🛑數據損壞(壞軌)", "N/A") else (true, "", "N/A")
      if strContains (pyUpper lt) "SKIP" || strContains (pyUpper lt) "EXEMPT" then none
      else
        let res := entryBranch lt (cat ++ title) cleanStd sRanges urt isTwoDec isPureInt val st0
        if res.2.1 then none
        else some ⟨res.2.2.1, res.1, valStr, "基準:" ++ res.2.2.2⟩

/-- Grouping key of the dimensional engine: page, cleaned title, reason. -/
abbrev GKey := String × String × String

/-- Insertion-ordered grouping map of the dimensional engine. -/
abbrev GMap := List (GKey × Issue)

/-- Insert a failure row under its key, creating the issue card on first
occurrence and appending the row otherwise. -/
def gUpsert (key : GKey) (mk : Issue) (row : Row) : GMap → GMap
  | [] => [(key, { mk with failures := [row] })]
  | (k, iss) :: rest =>
    if k = key then (k, { iss with failures := iss.failures ++ [row] }) :: rest
    else (k, iss) :: gUpsert key mk row rest

/-- Per-entry step of the dimensional engine: skip malformed entries, check
the measurement, and group any failure under its (page, title, reason) key. -/
def auditEntryStep (lt cat title page : String) (cleanStd : List ℚ)
    (sRanges : List (ℚ × ℚ)) (urt : Option ℚ) (g2 : GMap) (entry : List String) : GMap :=
  if entry.length < 2 then g2 else
  match processEntry lt cat title cleanStd sRanges urt
      (pyReplace (pyStrip (entry.getD 1 "")) " " "") with
  | none => g2
  | some v =>
    gUpsert (page, title, v.reason)
      { page := page, item := title, issue_type := "異常(" ++ v.label ++ ")",
        common_reason := v.reason, failures := [], source := "🐍 工程引擎" }
      [("id", .s (pyReplace (pyStrip (entry.headD "")) " " "")),
       ("val", .s v.valStr), ("target", .s v.target)] g2

/-- Per-item pass of the dimensional engine over the grouping map. -/
def auditDimItem (rules : List (String × String)) (fz : String → String → ℕ) (thr : ℕ)
    (item : DimItem) (g : GMap) : GMap :=
  if item.ds = "" then g else
  if anyKw (pyUpper (pyReplace (pyReplace item.item_title " " "") "\"" ""))
      exemptKwsUpper then g else
  if (match resolveRule fz thr rules
        (pyStrip (pyReplace (pyReplace item.item_title " " "") "\"" "")) with
      | some u => isRuleExemptLocal u
      | none => false) then g else
  let entries := (pySplit item.ds "|").filterMap (fun p =>
    if strContains p ":" then some (pySplit p ":") else none)
  let title := pyReplace (pyReplace item.item_title " " "") "\"" ""
  let cat := pyStrip item.category
  let rawSpec := pyReplace item.std_spec "\"" ""
  let mmNums := (findMM rawSpec).map parseTok
  let allNums := (findNums rawSpec).map parseTok
  let noise : List ℚ := [350, 300, 200, 145, 130, 1, 2, 3, 4, 5, 6]
  let cleanStd := allNums.filter (fun n => mmNums.contains n || (! noise.contains n && n > 5))
  let sRanges := (splitSpec rawSpec).flatMap processSegment
  let lt := item.sl.lt
  let urt := unRegenTargetOf lt cat title cleanStd item.sl.t
  entries.foldl (auditEntryStep lt cat title item.page cleanStd sRanges urt) g

/-- Dimensional audit engine: fold over all items, then list the grouped
issue cards in insertion order. -/
def pythonNumericalAudit (rules : List (String × String)) (fz : String → String → ℕ)
    (thr : ℕ) (dimension_data : List DimItem) : List Issue :=
  (dimension_data.foldl (fun g item => auditDimItem rules fz thr item g) []).map
    (fun kv => kv.2)

/-! Accounting reconciliation engine (python_accounting_audit). Arithmetic on
the BAD_DATA marker returned by safe_float raises a TypeError in Python, so
the embedded engine returns Except. -/

/-- Generic dict assignment on an association list: replace in place when the
key exists, append otherwise (Python dict update semantics). -/
def dictSet [DecidableEq κ] (k : κ) (v : α) : List (κ × α) → List (κ × α)
  | [] => [(k, v)]
  | (k2, v2) :: rest => if k2 = k then (k2, v) :: rest else (k2, v2) :: dictSet k v rest

/-- Generic dict lookup on an association list. -/
def dictGet [DecidableEq κ] (m : List (κ × α)) (k : κ) : Option α :=
  (m.find? (fun kv => decide (kv.1 = k))).map (fun kv => kv.2)

/-- Text cleaning shared by the accounting and process engines: drop spaces,
newlines, carriage returns and both quote characters, then strip. -/
def cleanText (t : String) : String :=
  pyStrip (pyReplace (pyReplace (pyReplace (pyReplace (pyReplace t " " "")
    "\n" "") "\r" "") "\"" "") "\x27" "")

/-- Digit-and-dot string accepted by Python float(): at most one dot and at
least one digit. -/
def parseDigitsDots (cs : List Char) : Option ℚ :=
  if cs.count '.' ≤ 1 ∧ cs.any isDig then some (parseUnsigned cs) else none

/-- Result of safe_float: either a float or the BAD_DATA marker. -/
inductive SF where
  | bad
  | num (q : ℚ)
deriving DecidableEq

/-- Embedding of safe_float. On a numeric input the digit-and-dot extraction
of its Python str rendering reconstructs the magnitude and drops a minus
sign, so the num case yields the absolute value (values here are plain
decimals, never exponent-rendered). -/
def safeFloat : PyVal → SF
  | .pnull => .num 0
  | .num q => .num |q|
  | .str s =>
    if pyUpper s = "NULL" then .num 0
    else if strContains s "[!]" then .bad
    else
      let cleaned := (pyReplace s "," "").data.filter (fun c => isDig c || c = '.')
      if cleaned = [] then .num 0
      else
        match parseDigitsDots cleaned with
        | some q => .num q
        | none => .num 0

/-- Embedding of parse_ratio: the first N/D match as a ratio, defaulting to 1. -/
def parseRatio (ruleStr : String) : ℚ :=
  if ruleStr = "" then 1
  else
    match findRatio ruleStr with
    | some nd => if nd.2 ≠ 0 then (nd.1 : ℚ) / (nd.2 : ℚ) else 1
    | none => 1

/-- Python exception escaping an engine. -/
inductive PyErr where
  | typeError
deriving DecidableEq

/-- Unit-rule record resolved from the rule table for one item. -/
structure RuleSet where
  uLocal : String := ""
  uFr : String := ""
  uAgg : String := ""
deriving DecidableEq

/-- Summary-table row as consumed by the accounting engine, with the optional
legacy target field. -/
structure SummaryRow where
  page : String := "總表"
  title : String := "Unknown"
  apply_qty : PyVal := .num 0
  delivery_qty : PyVal := .num 0
  targetField : Option PyVal := none
deriving DecidableEq

/-- Accumulating bucket of the summary tracker. -/
structure Bucket where
  target : ℚ
  actual : ℚ
  details : List (String × String × ℚ × String)
  page : String
deriving DecidableEq

/-- Summary-mismatch issue of the first pass. -/
def mkTableIssue (s : SummaryRow) (qA qD : ℚ) : Issue :=
  { page := s.page, item := s.title, issue_type := "🚨 總表數量異常",
    common_reason := "申請(" ++ pyFloatRepr qA ++ ") != 實交(" ++ pyFloatRepr qD ++ ")",
    failures :=
      [[("頁碼", .s "總表"), ("項目名稱", .s "📝 申請數量"), ("數量", .n qA), ("備註", .s "原始值")],
       [("頁碼", .s "總表"), ("項目名稱", .s "🚛 實交數量"), ("數量", .n qD), ("備註", .s "核對值")]],
    source := "🐍 會計引擎" }

/-- Delivered quantity of a summary row: a zero delivered quantity falls back
to the target field when present. -/
def phase1QD (s : SummaryRow) : SF :=
  if safeFloat s.delivery_qty = SF.num 0 then
    match s.targetField with
    | some tv => safeFloat tv
    | none => safeFloat s.delivery_qty
  else safeFloat s.delivery_qty

/-- First pass of the accounting engine over one summary row: compare applied
and delivered quantities (a BAD_DATA operand raises) and open the bucket. -/
def phase1Row (acc : List Issue × List (String × Bucket)) (s : SummaryRow) :
    Except PyErr (List Issue × List (String × Bucket)) :=
  match safeFloat s.apply_qty, phase1QD s with
  | .num a, .num b =>
    .ok ((if |a - b| > 1 / 100 then acc.1 ++ [mkTableIssue s a b] else acc.1),
      dictSet s.title ⟨b, 0, [], s.page⟩ acc.2)
  | _, _ => .error .typeError

/-- Rule resolution of the accounting engine, also reporting the matched rule
name, the match type and the score for the hit log. -/
def acctResolve (rules : List (String × RuleSet)) (fz : String → String → ℕ) (thr : ℕ)
    (titleClean : String) : Option (String × RuleSet × String × ℕ) :=
  match lookupKey rules titleClean with
  | some v => some (titleClean, v, "完全匹配", 100)
  | none =>
    let tNo := stripParens titleClean
    match lookupKey rules tNo with
    | some v => some (tNo, v, "去括號匹配", 100)
    | none =>
      (rules.foldl (fun acc kv =>
        let sc := fz kv.1 titleClean
        if sc > thr ∧ sc > acc.1 then (sc, some (kv.1, kv.2, "模糊匹配", sc)) else acc)
        ((0 : ℕ), none)).2

/-- Hit log of the accounting engine: matched rule name to its hit rows. -/
abbrev HitsLog := List (String × List Row)

/-- Append one hit row under a rule name. -/
def logHit (name : String) (hit : Row) (log : HitsLog) : HitsLog :=
  match lookupKey log name with
  | some hits => dictSet name (hits ++ [hit]) log
  | none => log ++ [(name, [hit])]

/-- Counter over id strings in first-occurrence order. -/
def bumpCount (k : String) : List (String × ℕ) → List (String × ℕ)
  | [] => [(k, 1)]
  | (k2, c) :: rest => if k2 = k then (k2, c + 1) :: rest else (k2, c) :: bumpCount k rest

/-- Counts of each id in a list, in first-occurrence order. -/
def countIds (l : List String) : List (String × ℕ) := l.foldl (fun m k => bumpCount k m) []

/-- Journal-family keywords of the accounting and process engines. -/
def journalFamily : List String := ["軸頸", "軸頭", "軸位", "內孔", "JOURNAL"]

/-- Item-level context handed to the bucket matcher. -/
structure ItemCtx where
  page : String
  rawTitle : String
  titleClean : String
  freightVal : ℚ
  fNote : String
  aggMode : String
  qtyAgg : ℚ
  aggMult : ℚ

/-- Bucket accumulation for one item against one summary bucket: the freight
bucket bypasses matching; otherwise fuzzy matching with the mutual-exclusion
filters decides membership. -/
def updateBucket (fzP : String → String → ℕ) (ctx : ItemCtx) (st : String × Bucket) :
    String × Bucket :=
  let sClean := cleanText st.1
  if fzP "輥輪拆裝.車修或銲補運費" sClean > 70 || strContains sClean "運費" then
    if ctx.freightVal > 0 then
      (st.1, { st.2 with
                actual := st.2.actual + ctx.freightVal,
                details := st.2.details ++
                  [(ctx.page, ctx.rawTitle, ctx.freightVal, "運費 " ++ ctx.fNote)] })
    else st
  else
    let titleClean := ctx.titleClean
    let matchA := fzP sClean titleClean > 90
    let sUpperCheck := pyUpper sClean
    let isDis := fzP "ROLL拆裝" sUpperCheck > 80
    let isMac := fzP "ROLL車修" sUpperCheck > 80
    let isWeld := fzP "ROLL銲補" sUpperCheck > 80 || strContains sUpperCheck "焊" ||
      strContains sUpperCheck "鉀"
    let hasPartBody := strContains titleClean "本體"
    let hasPartJournal := anyKw titleClean journalFamily
    let hasActMac := anyKw titleClean ["再生", "精車", "未再生", "粗車"]
    let hasActWeld := strContains titleClean "銲補" || strContains titleClean "焊" ||
      strContains titleClean "鉀"
    let isAssy := strContains titleClean "組裝" || strContains titleClean "拆裝"
    let matchB :=
      if isDis && isAssy then true
      else if isMac && (hasPartBody || hasPartJournal) && hasActMac then true
      else if isWeld && (hasPartBody || hasPartJournal) && hasActWeld then true
      else false
    let m0 := if ctx.aggMode = "A" then matchA
      else if ctx.aggMode = "AB" then matchA || matchB
      else if matchB then matchB else matchA
    let sUpper := pyUpper sClean
    let tUpper := pyUpper titleClean
    let sIsUnregen := strContains sClean "未再生" || strContains sClean "粗車"
    let tIsUnregen := strContains titleClean "未再生" || strContains titleClean "粗車"
    let sIsRegen := (strContains sClean "再生" || strContains sClean "精車") && ! sIsUnregen
    let tIsRegen := (strContains titleClean "再生" || strContains titleClean "精車" ||
      strContains titleClean "車修") && ! tIsUnregen
    let sIsBody := strContains sClean "本體"
    let tIsBody := strContains titleClean "本體"
    let sIsJournal := anyKw sClean journalFamily
    let tIsJournal := anyKw titleClean journalFamily
    let m1 := m0 && ! (sIsRegen && tIsUnregen) && ! (sIsUnregen && tIsRegen) &&
      ! (sIsBody && ! sIsJournal && tIsJournal) && ! (sIsJournal && ! sIsBody && tIsBody) &&
      ! (strContains sUpper "TOP" && strContains tUpper "BOTTOM") &&
      ! (strContains sUpper "BOTTOM" && strContains tUpper "TOP")
    if m1 then
      let cMsg := if ctx.aggMult ≠ 1 then "x" ++ pyFloatRepr ctx.aggMult else ""
      (st.1, { st.2 with
                actual := st.2.actual + ctx.qtyAgg,
                details := st.2.details ++ [(ctx.page, ctx.rawTitle, ctx.qtyAgg, cMsg)] })
    else st

/-- Second pass of the accounting engine over one item: rule resolution and
hit logging, the local-quantity check (short-circuit order of the Python
conjunction preserved, so a BAD_DATA target raises only when the rule is not
exempt), duplicate-id checks, freight computation and bucket accumulation. -/
def phase2Item (rules : List (String × RuleSet)) (fzT fzP : String → String → ℕ) (thr : ℕ)
    (st : List Issue × List (String × Bucket) × HitsLog) (item : DimItem) :
    Except PyErr (List Issue × List (String × Bucket) × HitsLog) :=
  let rawTitle := item.item_title
  let titleClean := cleanText rawTitle
  let page := item.page
  let targetPc := safeFloat item.item_pc_target
  let batchQty := safeFloat item.batch_total_qty
  let resolved := acctResolve rules fzT thr titleClean
  let hits := match resolved with
    | some r => logHit r.1
        [("明細名稱", .s rawTitle), ("匹配類型", .s r.2.2.1), ("分數", .n (r.2.2.2 : ℚ)),
         ("頁碼", .s page)] st.2.2
    | none => st.2.2
  let uLocal := ((resolved.map (fun r => r.2.1)).map (fun r => r.uLocal)).getD ""
  let uFr := ((resolved.map (fun r => r.2.1)).map (fun r => r.uFr)).getD ""
  let uAgg := ((resolved.map (fun r => r.2.1)).map (fun r => r.uAgg)).getD ""
  let dataList := (pySplit item.ds "|").filterMap (fun p =>
    if strContains p ":" then some (pySplit p ":") else none)
  let rawCount : ℕ := dataList.length
  let idCounts := countIds (dataList.map (fun e => pyStrip (e.headD "")))
  let isLocalExempt := strContains uLocal "豁免" || strContains (pyUpper uLocal) "SKIP" ||
    strContains (pyUpper uLocal) "EXEMPT"
  match batchQty with
  | .bad => .error .typeError
  | .num bq =>
    let actual : ℚ := if bq > 0 then (rawCount : ℚ) else (rawCount : ℚ) * parseRatio uLocal
    let localCheck : Except PyErr (List Issue) :=
      if isLocalExempt then .ok []
      else
        match targetPc with
        | .bad => .error .typeError
        | .num tp =>
          if |actual - tp| > 1 / 100 ∧ tp > 0 then
            .ok [{ page := page, item := rawTitle, issue_type := "🛑 統計不符(單項)",
                   common_reason := "標題 " ++ pyFloatRepr tp ++ " != 內文 " ++
                     pyFloatRepr actual,
                   failures := [], source := "🐍 會計引擎" }]
          else .ok []
    match localCheck with
    | .error e => .error e
    | .ok localIssues =>
      let dupIssues : List Issue :=
        if strContains titleClean "本體" then
          idCounts.filterMap (fun rc =>
            if rc.2 > 1 then
              some { page := page, item := rawTitle, issue_type := "⚠️編號重複(本體)",
                     common_reason := rc.1 ++ " 重複 " ++ natToStr rc.2 ++ "次",
                     failures := [] }
            else none)
        else if anyKw titleClean journalFamily then
          idCounts.filterMap (fun rc =>
            if rc.2 > 2 then
              some { page := page, item := rawTitle, issue_type := "⚠️編號重複(軸頸)",
                     common_reason := rc.1 ++ " 重複 " ++ natToStr rc.2 ++ "次",
                     failures := [] }
            else none)
        else []
      let frMult := parseRatio uFr
      let uFrUpper := pyUpper uFr
      let isFrExempt := strContains uFrUpper "豁免" || strContains uFrUpper "SKIP"
      let isForcedInclude := strContains uFr "計入" || strContains uFrUpper "INCLUDED"
      let isDefaultTarget := (strContains titleClean "本體" && strContains titleClean "未再生")
        || strContains titleClean "新品組裝"
      let freightVal := if ! isFrExempt &&
          (isDefaultTarget || isForcedInclude || decide (frMult ≠ 1)) then actual * frMult else 0
      let fNote := if frMult ≠ 1 then "x" ++ pyFloatRepr frMult else ""
      let aggMode := if uAgg ≠ "" then
          let p := pyUpper (pyReplace uAgg " " "")
          if strContains p "EXEMPT" || strContains p "SKIP" then "EXEMPT"
          else if strContains p "AB" then "AB"
          else if strContains p "A" then "A"
          else "B"
        else "B"
      let aggMult := parseRatio uAgg
      let qtyAgg := if bq > 0 then bq else actual * aggMult
      let ctx : ItemCtx := ⟨page, rawTitle, titleClean, freightVal, fNote, aggMode, qtyAgg, aggMult⟩
      let tracker2 := if aggMode = "EXEMPT" then st.2.1 else st.2.1.map (updateBucket fzP ctx)
      .ok (st.1 ++ localIssues ++ dupIssues, tracker2, hits)

/-- Settlement pass: one mismatch issue per bucket whose accumulated actual
differs from the target beyond the epsilon, with the full evidence table. -/
def settlement (tracker : List (String × Bucket)) : List Issue :=
  tracker.filterMap (fun sb =>
    if |sb.2.actual - sb.2.target| > 1 / 100 then
      some { page := sb.2.page, item := sb.1, issue_type := "🛑 明細匯總不符",
             common_reason := "實交(" ++ pyFloatRepr sb.2.target ++ ") != 明細加總(" ++
               pyFloatRepr sb.2.actual ++ ")",
             failures :=
               [[("頁碼", .s "總表"), ("項目名稱", .s "🎯 目標 (實交)"),
                 ("數量", .n sb.2.target), ("備註", .s "基準")]] ++
               sb.2.details.map (fun d =>
                 [("頁碼", .s ("P." ++ d.1)), ("項目名稱", .s d.2.1), ("數量", .n d.2.2.1),
                  ("備註", .s d.2.2.2)]) ++
               [[("頁碼", .s "∑"), ("項目名稱", .s "加總結果"), ("數量", .n sb.2.actual),
                 ("備註", .s "總計")]],
             source := "🐍 會計引擎" }
    else none)

/-- Hidden rule-hit payload issue appended when any rule matched. -/
def hiddenIssue (hits : HitsLog) (thr : ℕ) : Issue :=
  { issue_type := "HIDDEN_DATA", ruleHits := hits, fuzzThreshold := thr }

/-- Accounting reconciliation engine: the three passes of
python_accounting_audit with the hit-log payload, raising PyErr.typeError
whenever Python arithmetic meets the BAD_DATA marker. -/
def pythonAccountingAudit (rules : List (String × RuleSet)) (fzT fzP : String → String → ℕ)
    (thr : ℕ) (dimension_data : List DimItem) (summary_rows : List SummaryRow) :
    Except PyErr (List Issue) := do
  let p1 ← summary_rows.foldlM phase1Row ([], [])
  let p2 ← dimension_data.foldlM (phase2Item rules fzT fzP thr) (p1.1, p1.2, [])
  let issues := p2.1 ++ settlement p2.2.1
  pure (if p2.2.2 ≠ [] then issues ++ [hiddenIssue p2.2.2 thr] else issues)

/-! Process and traceability engine (python_process_audit). -/

/-- History key: part id and track. -/
abbrev ProcKey := String × String

/-- Stage entry of the per-part history. -/
structure StageInfo where
  val : ℚ
  page : String
  title : String
deriving DecidableEq

/-- Display names of the four process stages (STAGE_MAP). -/
def stageMapName : ℕ → String
  | 1 => "未再生/粗車"
  | 2 => "銲補/焊補"
  | 3 => "再生/精車"
  | 4 => "研磨"
  | _ => ""

/-- Size rank of each stage used by the ordering check. -/
def sizeRank : ℕ → ℕ
  | 1 => 10
  | 4 => 20
  | 3 => 30
  | 2 => 40
  | _ => 0

/-- Track and stage of an item: the forced rule decides first, the title
keywords fill whatever the rule left unset. -/
def procTrackStage (forced : Option String) (title : String) : String × ℕ :=
  let ts0 : String × ℕ :=
    match forced with
    | some fr0 =>
      let fr := pyUpper fr0
      let track := if strContains fr "本體" then "本體"
        else if strContains fr "軸頸" || strContains fr "軸頭" || strContains fr "軸位" then "軸頸"
        else "Unknown"
      let stage := if strContains fr "未再生" || strContains fr "粗車" then 1
        else if strContains fr "銲" || strContains fr "焊" || strContains fr "鉀" then 2
        else if strContains fr "再生" || strContains fr "精車" then 3
        else if strContains fr "研磨" then 4
        else 0
      (track, stage)
    | none => ("Unknown", 0)
  let stage := if ts0.2 = 0 then
      (if strContains title "研磨" then 4
       else if strContains title "銲補" || strContains title "銲接" || strContains title "焊" ||
         strContains title "鉀" then 2
       else if strContains title "未再生" || strContains title "粗車" then 1
       else if strContains title "再生" || strContains title "精車" then 3
       else 0)
    else ts0.2
  let track := if ts0.1 = "Unknown" then
      (if strContains title "本體" then "本體"
       else if anyKw title journalFamily then "軸頸"
       else "Unknown")
    else ts0.1
  (track, stage)

/-- One item folded into the stage history: keyword and rule exemptions skip
the item, an unknown track or stage skips it, and every measurement segment
with a numeric value records (overwrites) its stage entry. -/
def buildHistoryItem (rules : List (String × String)) (fz : String → String → ℕ) (thr : ℕ)
    (h : List (ProcKey × List (ℕ × StageInfo))) (item : DimItem) :
    List (ProcKey × List (ℕ × StageInfo)) :=
  let pNum := item.page
  let title := pyStrip item.item_title
  let titleClean := cleanText title
  if anyKw (pyUpper titleClean) exemptKwsUpper then h else
  let forced := resolveRule fz thr rules titleClean
  let skip := match forced with
    | some fr0 => strContains (pyUpper fr0) "豁免" || strContains (pyUpper fr0) "EXEMPT" ||
        strContains (pyUpper fr0) "SKIP"
    | none => false
  if skip then h else
  let ts := procTrackStage forced title
  if ts.1 = "Unknown" ∨ ts.2 = 0 then h else
  (pySplit item.ds "|").foldl (fun h2 seg =>
    let parts := pySplit seg ":"
    if parts.length < 2 then h2 else
    let rid := pyUpper (pyStrip (parts.headD ""))
    let valStr := pyStrip (parts.getD 1 "")
    match findNums valStr with
    | [] => h2
    | v :: _ =>
      let key : ProcKey := (rid, ts.1)
      let sd := (dictGet h2 key).getD []
      dictSet key (dictSet ts.2 ⟨parseTok v, pNum, title⟩ sd) h2) h

/-- Ascending insertion keeping the first of equal keys (stable sort step). -/
def insNat (x : ℕ) : List ℕ → List ℕ
  | [] => [x]
  | y :: rest => if x ≤ y then x :: y :: rest else y :: insNat x rest

/-- Sorted copy of a natural-number list. -/
def sortNatList (l : List ℕ) : List ℕ := l.foldr insNat []

/-- Traceability-gap issues of one history key: every stage strictly below
the maximum present stage that is missing is reported, in one issue. -/
def gapIssuesOf (key : ProcKey) (sd : List (ℕ × StageInfo)) : List Issue :=
  let present := sortNatList (sd.map (fun e => e.1))
  match present.getLast? with
  | none => []
  | some maxStage =>
    let missing := (List.range' 1 (maxStage - 1)).filter
      (fun s => ! (sd.map (fun e => e.1)).contains s)
    let missingNames := missing.map stageMapName
    if missingNames ≠ [] then
      let lastInfo := (dictGet sd maxStage).getD ⟨0, "?", ""⟩
      [{ page := lastInfo.page, item := lastInfo.title, issue_type := "🛑溯源異常(缺漏工序)",
         common_reason := "[" ++ key.2 ++ "] 進度至【" ++ stageMapName maxStage ++
           "】，缺前置：" ++ joinSep ", " missingNames,
         failures := [[("id", .s key.1), ("val", .s "缺漏"), ("calc", .s "履歷不完整")]],
         source := "🐍 流程引擎" }]
    else []

/-- Ordered pairs of a list, first component before the second. -/
def allPairs : List ℕ → List (ℕ × ℕ)
  | [] => []
  | x :: rest => rest.map (fun y => (x, y)) ++ allPairs rest

/-- Size-ordering issues of one history key: every present pair whose values
sit on the wrong side of the size-rank expectation is reported. -/
def orderIssuesOf (key : ProcKey) (sd : List (ℕ × StageInfo)) : List Issue :=
  let present := sortNatList (sd.map (fun e => e.1))
  (allPairs present).filterMap (fun p =>
    let infoA := (dictGet sd p.1).getD ⟨0, "?", ""⟩
    let infoB := (dictGet sd p.2).getD ⟨0, "?", ""⟩
    let expASmaller := sizeRank p.1 < sizeRank p.2
    let isViolation := if expASmaller then decide (infoA.val ≥ infoB.val)
      else decide (infoA.val ≤ infoB.val)
    if isViolation then
      let sign := if expASmaller then "<" else ">"
      some { page := infoB.page, item := "[" ++ key.2 ++ "] 尺寸邏輯",
             issue_type := "🛑流程異常(尺寸倒置)",
             common_reason := "尺寸邏輯錯誤：" ++ stageMapName p.1 ++ " 應 " ++ sign ++ " " ++
               stageMapName p.2,
             failures := [[("id", .s (stageMapName p.1)), ("val", .n infoA.val),
                 ("calc", .s "前")],
               [("id", .s (stageMapName p.2)), ("val", .n infoB.val), ("calc", .s "後")]],
             source := "🐍 流程引擎" }
    else none)

/-- Check pass over the whole history, in insertion order of the keys. -/
def checkHistory (h : List (ProcKey × List (ℕ × StageInfo))) : List Issue :=
  h.flatMap (fun e => gapIssuesOf e.1 e.2 ++ orderIssuesOf e.1 e.2)

/-- Process and traceability engine: build the history, then check it. -/
def pythonProcessAudit (rules : List (String × String)) (fz : String → String → ℕ) (thr : ℕ)
    (dimension_data : List DimItem) : List Issue :=
  checkHistory (dimension_data.foldl (buildHistoryItem rules fz thr) [])

/-! Header checker (python_header_audit_batch, the AI-JSON sections: job
format and date ordering; the OCR mixed-job scan over the page gallery is the
first section of the Python function and is not needed by any claim here). -/

/-- Job-number format: ten characters, W/R/O/Y then nine uppercase
alphanumerics. -/
def validJobFormat (s : String) : Bool :=
  match s.data with
  | c :: rest => (c = 'W' || c = 'R' || c = 'O' || c = 'Y') && rest.length == 9 &&
      rest.all (fun d => ('A' ≤ d && d ≤ 'Z') || isDig d)
  | [] => false

/-- Days of a month in the proleptic Gregorian calendar of datetime. -/
def daysInMonth (y m : ℕ) : ℕ :=
  if m = 2 then (if y % 4 = 0 ∧ (y % 100 ≠ 0 ∨ y % 400 = 0) then 29 else 28)
  else if m = 4 ∨ m = 6 ∨ m = 9 ∨ m = 11 then 30 else 31

/-- Embedding of strptime with the %Y/%m/%d format applied after the dash to
slash replacement: three all-digit components of bounded width denoting a
valid calendar date. -/
def parseDate (s : String) : Option (ℕ × ℕ × ℕ) :=
  match pySplit (pyReplace s "-" "/") "/" with
  | [ys, ms, ds] =>
    if ys.data ≠ [] ∧ ys.data.all isDig ∧ ys.data.length ≤ 4 ∧
       ms.data ≠ [] ∧ ms.data.all isDig ∧ ms.data.length ≤ 2 ∧
       ds.data ≠ [] ∧ ds.data.all isDig ∧ ds.data.length ≤ 2 then
      let y := digitsToNat ys.data
      let m := digitsToNat ms.data
      let d := digitsToNat ds.data
      if 1 ≤ y ∧ 1 ≤ m ∧ m ≤ 12 ∧ 1 ≤ d ∧ d ≤ daysInMonth y m then some (y, m, d) else none
    else none
  | _ => none

/-- Strict ordering of parsed dates (the datetime comparison). -/
def dateLt (a b : ℕ × ℕ × ℕ) : Bool :=
  decide (a.1 < b.1 ∨ (a.1 = b.1 ∧ (a.2.1 < b.2.1 ∨ (a.2.1 = b.2.1 ∧ a.2.2 < b.2.2))))

/-- Days in the year strictly before month m. -/
def daysBeforeMonth (y m : ℕ) : ℕ := ((List.range' 1 (m - 1)).map (daysInMonth y)).sum

/-- Ordinal of a date (datetime.toordinal, day 1 is year 1, January 1). -/
def dateOrdinal (d : ℕ × ℕ × ℕ) : ℕ :=
  let y := d.1 - 1
  365 * y + y / 4 - y / 100 + y / 400 + daysBeforeMonth d.1 d.2.1 + d.2.2

/-- Late-delivery issue of the date check. -/
def lateIssue (dSch dAct : String) (days : ℕ) : Issue :=
  { page := "表頭", item := "交貨時效", issue_type := "⏰ 逾期交貨",
    common_reason := "實際 " ++ dAct ++ " 晚於 預定 " ++ dSch,
    failures := [[("id", .s "延遲天數"), ("val", .s (natToStr days ++ " 天"))]],
    source := "🐍 表頭稽核(AI)" }

/-- Date-ordering check of the header checker: when both dates are present
and parse, raise the late-delivery issue exactly when the actual date is
strictly later than the scheduled date; a parse failure raises nothing. -/
def headerDateIssues (dSch dAct : String) : List Issue :=
  if dSch ≠ "Unknown" ∧ dAct ≠ "Unknown" then
    match parseDate dSch, parseDate dAct with
    | some ps, some pa =>
      if dateLt ps pa then [lateIssue dSch dAct (dateOrdinal pa - dateOrdinal ps)] else []
    | _, _ => []
  else []

/-- Job-number format check of the header checker. -/
def headerJobIssues (aiJob : String) : List Issue :=
  if aiJob ≠ "" ∧ aiJob ≠ "Unknown" then
    let cleanJob := pyReplace (pyReplace (pyUpper aiJob) " " "") "-" ""
    if ! validJobFormat cleanJob then
      [{ page := "表頭", item := "工令格式", issue_type := "⚠️ 格式錯誤",
         common_reason := "AI 識別工令 " ++ aiJob ++ " 格式不符 (需10碼，W/R/O/Y開頭)",
         failures := [[("id", .s "識別值"), ("val", .s aiJob)]],
         source := "🐍 表頭稽核(AI)" }]
    else []
  else []

/-- Header checker over the AI header info: job format, then date ordering. -/
def pythonHeaderAuditAI (jobNo dSch dAct : String) : List Issue :=
  headerJobIssues jobNo ++ headerDateIssues dSch dAct

/-! Item classifier (assign_category_by_python). -/

/-- Balancing and heat-treatment vocabulary of the classifier override. -/
def balHeatKws : List String := ["動平衡", "BALANCING", "熱處理", "HEAT", "TREATING"]

/-- Uppercased, space/newline/quote-free title used by the keyword tests. -/
def classifierT (item_title : String) : String :=
  pyReplace (pyReplace (pyReplace (pyUpper item_title) " " "") "\n" "") "\"" ""

/-- Keyword fallback of the classifier, in its strict precedence order. -/
def fallbackKw (t : String) : String :=
  let hasWeld := anyKw t ["銲補", "銲接", "焊", "WELD", "鉀"]
  let hasUnregen := anyKw t ["未再生", "UN_REGEN", "粗車"]
  let hasRegen := anyKw t ["再生", "研磨", "精加工", "車修", "KEYWAY", "GRIND", "MACHIN",
    "精車", "組裝", "拆裝", "裝配", "ASSY"]
  if hasWeld then "min_limit"
  else if hasUnregen then
    (if anyKw t journalFamily then "max_limit" else "un_regen")
  else if hasRegen then "range"
  else "unknown"

/-- Rule-table scan of the classifier: the best partial-ratio score above 85,
trying the parenthesis-stripped title when the direct score is below 95, with
ties broken toward the longer rule string. -/
def forcedRuleOf (rules : List (String × String)) (fzP : String → String → ℕ)
    (titleClean : String) : Option String :=
  (rules.foldl (fun acc row =>
    let ruleVal := pyStrip row.2
    if ruleVal = "" ∨ pyLower ruleVal = "nan" then acc
    else
      let inameClean := cleanText (pyStrip row.1)
      let sc0 := fzP inameClean titleClean
      let sc := if sc0 < 95 then
          (let s2 := fzP inameClean (stripParens titleClean)
           if s2 > sc0 then s2 else sc0)
        else sc0
      if sc > 85 then
        if sc > acc.1 then (sc, some ruleVal)
        else if sc = acc.1 then
          (acc.1, if ruleVal.length > (acc.2.getD "").length then some ruleVal else acc.2)
        else acc
      else acc) ((0 : ℕ), (none : Option String))).2

/-- Token-to-category mapping of a resolved rule string, in source order. -/
def tokenCat (fr0 : String) : Option String :=
  let fr := pyUpper fr0
  if strContains fr "豁免" || strContains fr "EXEMPT" || strContains fr "SKIP" then some "exempt"
  else if strContains fr "再生" || strContains fr "精車" || strContains fr "RANGE" then
    some "range"
  else if strContains fr "銲" || strContains fr "焊" || strContains fr "MIN" then
    some "min_limit"
  else if strContains fr "軸頸" || strContains fr "軸頭" || strContains fr "軸位" ||
    strContains fr "MAX" then some "max_limit"
  else if strContains fr "本體" || strContains fr "UN_REGEN" then some "un_regen"
  else none

/-- Item classifier, transliterated from assign_category_by_python: keyword
override, rule-table hit with its token chain falling through to the keyword
fallback, and the keyword fallback. -/
def assign_category_by_python (rules : List (String × String)) (fzP : String → String → ℕ)
    (item_title : String) : String :=
  let titleClean := cleanText item_title
  let t := classifierT item_title
  if anyKw t balHeatKws then "exempt"
  else
    match forcedRuleOf rules fzP titleClean with
    | some fr0 =>
      let fr := pyUpper fr0
      if strContains fr "豁免" || strContains fr "EXEMPT" || strContains fr "SKIP" then "exempt"
      else if strContains fr "再生" || strContains fr "精車" || strContains fr "RANGE" then
        "range"
      else if strContains fr "銲" || strContains fr "焊" || strContains fr "MIN" then
        "min_limit"
      else if strContains fr "軸頸" || strContains fr "軸頭" || strContains fr "軸位" ||
        strContains fr "MAX" then "max_limit"
      else if strContains fr "本體" || strContains fr "UN_REGEN" then "un_regen"
      else fallbackKw t
    | none => fallbackKw t

/-- Decision list stated by the specification: keyword override first, then
the rule-table token mapping, then the keyword fallback. -/
def classifierSpec (rules : List (String × String)) (fzP : String → String → ℕ)
    (item_title : String) : String :=
  let t := classifierT item_title
  if anyKw t balHeatKws then "exempt"
  else
    match (forcedRuleOf rules fzP (cleanText item_title)).bind tokenCat with
    | some c => c
    | none => fallbackKw t

/-! Issue consolidator (consolidate_issues). -/

/-- Consolidation key: item, issue type, reason. -/
abbrev CKey := String × String × String

/-- Consolidation key of an issue. -/
def cKeyOf (i : Issue) : CKey := (i.item, i.issue_type, i.common_reason)

/-- Page sort key: the numeric value of an all-digit page, 999 otherwise. -/
def pageSortKey (x : String) : ℕ :=
  if x ≠ "" ∧ x.data.all isDig then digitsToNat x.data else 999

/-- Stable insertion by page sort key. -/
def insPage (x : String) : List String → List String
  | [] => [x]
  | y :: rest => if pageSortKey x ≤ pageSortKey y then x :: y :: rest else y :: insPage x rest

/-- Stable sort of page strings by their sort key. -/
def sortPages (l : List String) : List String := l.foldr insPage []

/-- Set insertion of a page string, modeled in insertion order. -/
def addPage (p : String) (l : List String) : List String :=
  if l.contains p then l else l ++ [p]

/-- Group an issue into the consolidation map: the first issue of a key
becomes the card, later ones contribute their page and their evidence rows. -/
def consUpsert (i : Issue) :
    List (CKey × (Issue × List String)) → List (CKey × (Issue × List String))
  | [] => [(cKeyOf i, (i, [i.page]))]
  | (k, c) :: rest =>
    if k = cKeyOf i then
      (k, ({ c.1 with failures := c.1.failures ++ i.failures }, addPage i.page c.2)) :: rest
    else (k, c) :: consUpsert i rest

/-- Card rendering of one consolidation group: the sorted, comma-joined page
list replaces the page field. -/
def consFinalize (kc : CKey × (Issue × List String)) : Issue :=
  { kc.2.1 with page := joinSep ", " (sortPages kc.2.2) }

/-- Issue consolidator: group by (item, type, reason), then render each card
with its sorted, comma-joined page list. -/
def consolidate_issues (issues : List Issue) : List Issue :=
  (issues.foldl (fun m i => consUpsert i m) []).map consFinalize

/-! Claim-side definitions and concrete inputs used by the theorems below. -/

/-- Zero similarity oracle, standing for an unavailable fuzzy matcher in the
concrete runs (no rule row fuzzily matches). -/
def fzZero : String → String → ℕ := fun _ _ => 0

/-- Fallback emission exactly as claim C2 words it: bases are the signed
tokens of magnitude above 10, offsets those of magnitude below 10, and each
base with offsets yields the interval from the minimum to the maximum of
base plus offset over the offsets, a base without offsets the degenerate
interval. -/
def fallbackClaimC2 (toks : List ℚ) : List (ℚ × ℚ) :=
  let bases := toks.filter (fun v => decide (|v| > 10))
  let offsets := toks.filter (fun v => decide (|v| < 10))
  bases.map (fun b =>
    if offsets = [] then (b, b)
    else (qListMin (offsets.map (fun o => pyRound4 (b + o))),
          qListMax (offsets.map (fun o => pyRound4 (b + o)))))

/-- Fallback emission as the source has it (the amended claim C2): bases are
the tokens with signed value above 10 (a negative base is dropped), and with
exactly one offset the base itself joins the endpoint set. -/
def fallbackAmendedC2 (toks : List ℚ) : List (ℚ × ℚ) :=
  let bases := toks.filter (fun v => decide (v > 10))
  let offsets := toks.filter (fun v => decide (|v| < 10))
  bases.map (fun b =>
    if offsets = [] then (b, b)
    else
      let eps := offsets.map (fun o => pyRound4 (b + o))
      let eps2 := if offsets.length = 1 then eps ++ [b] else eps
      (qListMin eps2, qListMax eps2))

/-- Scenario B item of the specification: category un_regen, spec text with
the single trusted reference number 196, three measurements. -/
def itemScenarioB : DimItem :=
  { page := "1", item_title := "ROLL本體未再生", std_spec := "196mm", category := "un_regen",
    ds := "A:196|B:200.00|C:200", sl := { lt := "un_regen" } }

/-- Range-category item carrying one damage-sentinel measurement. -/
def itemDamagedRange : DimItem :=
  { page := "1", item_title := "ROLL再生車修", std_spec := "300±0.1mm", category := "range",
    ds := "A1:[!]", sl := { lt := "range" } }

/-- Item whose single measurement records only stage 3 (reconditioning) of
the body track. -/
def itemSingleStage : DimItem :=
  { page := "1", item_title := "本體再生車修", ds := "V1:100" }

/-- Summary row whose applied quantity carries the damage sentinel. -/
def rowSentinel : SummaryRow :=
  { title := "X", apply_qty := .str "[!]", delivery_qty := .num 5, page := "1" }

/-- Item with no title-declared target quantity (target 0). -/
def itemZeroTarget : DimItem :=
  { page := "2", item_title := "某項目", ds := "A:1|B:2", item_pc_target := .num 0 }

/-- Summary row whose applied and delivered quantities disagree. -/
def rowMismatch : SummaryRow :=
  { title := "T", apply_qty := .num 3, delivery_qty := .num 5, page := "1" }

/-- Occurrence of an evidence row with the given id and the damage-sentinel
value somewhere in a grouping map. -/
def rowInG (g : GMap) (rid : String) : Prop :=
  ∃ kv ∈ g, ∃ row ∈ kv.2.failures,
    ("id", Cell.s rid) ∈ row ∧ ("val", Cell.s "[!]") ∈ row

/-- Occurrence of an evidence row with the given id and the damage-sentinel
value somewhere in an issue list. -/
def hasBadRow (issues : List Issue) (rid : String) : Prop :=
  ∃ iss ∈ issues, ∃ row ∈ iss.failures,
    ("id", Cell.s rid) ∈ row ∧ ("val", Cell.s "[!]") ∈ row

deriving instance DecidableEq for Except

/-! Theorems settling the claims, preceded by their helper lemmas. -/

/-- C1: the specification promises that no core engine raises to its caller
and that every abnormal condition, including a damage sentinel in a summary
value, becomes an Issue record. The source instead returns the BAD_DATA
marker from safe_float and immediately subtracts it from a float, so a
sentinel applied-quantity raises a TypeError out of
python_accounting_audit. -/
theorem c1_accounting_sentinel_raises :
    safeFloat (PyVal.str "[!]") = SF.bad ∧
    pythonAccountingAudit [] fzZero fzZero 70 [] [rowSentinel] =
      Except.error PyErr.typeError := by decide

/-- C6: scenario B of the specification holds on the code. With category
un_regen and 196 as the only trusted reference number (hence the threshold,
being the maximum trusted number of at least 120), measurement 196 passes as
an integer at the threshold, 200.00 passes above the threshold with two
decimals, and 200 fails with the two-decimal-place reason. -/
theorem c6_scenario_b :
    pythonNumericalAudit [] fzZero 70 [itemScenarioB] =
      [{ page := "1", item := "ROLL本體未再生", issue_type := "異常(未再生)",
         common_reason := "應填兩位小數",
         failures := [[("id", .s "C"), ("val", .s "200"), ("target", .s "基準:196.0")]],
         source := "🐍 工程引擎" }] ∧
    unRegenTargetOf "un_regen" "un_regen" "ROLL本體未再生" [196] 0 = some 196 := by decide

/-- C3, counterexample: a damage-sentinel measurement in an audited range
item is reported, but its reported reason is the interval-violation reason
(produced by comparing the sentinel placeholder value -999 against the
acceptance interval), not the damage reason — refuting the claim that the
reason is produced without any numeric comparison. -/
theorem c3_counterexample :
    pythonNumericalAudit [] fzZero 70 [itemDamagedRange] =
      [{ page := "1", item := "ROLL再生車修", issue_type := "異常(精加工)",
         common_reason := "不在區間內",
         failures := [[("id", .s "A1"), ("val", .s "[!]"),
           ("target", .s "基準:[[299.9, 300.1]]")]],
         source := "🐍 工程引擎" }] ∧
    "不在區間內" ≠ "🛑數據損壞(壞軌)" := by decide

/-- C4, counterexample: both dates parse, the actual date is strictly earlier
than the scheduled date — the situation the claim calls a violation of the
ordering — and the header checker raises no issue at all. -/
theorem c4_counterexample :
    parseDate "2024/01/10" = some (2024, 1, 10) ∧
    parseDate "2024/01/05" = some (2024, 1, 5) ∧
    dateLt (2024, 1, 5) (2024, 1, 10) = true ∧
    pythonHeaderAuditAI "W1234567AB" "2024/01/10" "2024/01/05" = [] := by decide

/-- C5, counterexample: a part-id/track key with exactly one recorded stage
(stage 3 only) nevertheless yields a traceability-gap issue, refuting the
claimed restriction of the completeness check to keys with at least two
recorded stages. -/
theorem c5_counterexample :
    ([itemSingleStage].foldl (buildHistoryItem [] fzZero 70) []).map
        (fun e => (e.1, e.2.length)) = [(("V1", "本體"), 1)] ∧
    (pythonProcessAudit [] fzZero 70 [itemSingleStage]).map (fun i => i.issue_type) =
      ["🛑溯源異常(缺漏工序)"] := by decide

/-- C2, counterexample: on the fallback-eligible segment 160-0.05 (no
plus-minus match, no tilde range passing the magnitude guard) the code emits
the interval from 159.95 to 160 — the single offset makes the base itself an
endpoint — while the claimed rule emits the degenerate interval at 159.95. -/
theorem c2_counterexample :
    findPM (cleanPart "160-0.05") = [] ∧
    tildeValidOf (findTilde (cleanPart "160-0.05")) = [] ∧
    processSegment "160-0.05" = [(159.95, 160)] ∧
    fallbackClaimC2 ((findSigned (cleanPart "160-0.05")).map parseTok) =
      [(159.95, 159.95)] ∧
    processSegment "160-0.05" ≠
      fallbackClaimC2 ((findSigned (cleanPart "160-0.05")).map parseTok) := by decide

/-- Helper: the base/offset accumulation of the fallback branch is the pair
of filters by signed value above 10 and magnitude below 10. -/
theorem splitBO_eq : ∀ l : List ℚ,
    splitBO l = (l.filter (fun v => decide (v > 10)), l.filter (fun v => decide (|v| < 10)))
  | [] => rfl
  | v :: rest => by
    have ih := splitBO_eq rest
    by_cases h1 : v > 10
    · have h2 : ¬ (|v| < 10) := by
        have hv : v ≤ |v| := le_abs_self v
        intro h
        linarith
      simp [splitBO, ih, h1, h2]
    · by_cases h2 : |v| < 10
      · simp [splitBO, ih, h1, h2]
      · simp [splitBO, ih, h1, h2]

/-- Helper: the per-base interval of the fallback branch, with the single
endpoint test phrased on the offset list itself. -/
theorem baseInterval_desc (offs : List ℚ) (b : ℚ) :
    baseInterval offs b =
      if offs = [] then (b, b)
      else
        (qListMin (if offs.length = 1 then offs.map (fun o => pyRound4 (b + o)) ++ [b]
            else offs.map (fun o => pyRound4 (b + o))),
         qListMax (if offs.length = 1 then offs.map (fun o => pyRound4 (b + o)) ++ [b]
            else offs.map (fun o => pyRound4 (b + o)))) := by
  unfold baseInterval
  by_cases h : offs = [] <;> simp [h]

/-- C7: per spec segment, interval extraction follows the fixed priority of
the source. If any plus-minus pattern occurs, the emitted intervals are
exactly base-offset to base+offset for every match (the base defaulting to 0
when omitted, as pmIntervalsOf states), and no other notation contributes;
only otherwise, when some tilde range passes the magnitude guard
|a-b| < 0.5a, the emitted intervals are exactly min to max for every
guard-passing tilde range (as tildeValidOf states). -/
theorem c7_interval_priority (part : String) :
    (findPM (cleanPart part) ≠ [] →
      processSegment part = pmIntervalsOf (findPM (cleanPart part))) ∧
    (findPM (cleanPart part) = [] → tildeValidOf (findTilde (cleanPart part)) ≠ [] →
      processSegment part = tildeValidOf (findTilde (cleanPart part))) := by
  constructor
  · intro hpm
    have hc : ¬ cleanPart part = "" := by
      intro h
      rw [h] at hpm
      exact hpm rfl
    unfold processSegment
    simp [hc, hpm]
  · intro hpm htl
    have hc : ¬ cleanPart part = "" := by
      intro h
      rw [h] at htl
      exact htl rfl
    unfold processSegment
    simp [hc, hpm, htl]

/-- C7, witness: the plus-minus segment of scenario A and a plain tilde
range, evaluated through the theorem. -/
theorem c7_interval_priority_witness :
    processSegment "300±0.1mm" = [(299.9, 300.1)] ∧
    processSegment "100~120" = [(100, 120)] := by
  constructor
  · rw [(c7_interval_priority "300±0.1mm").1 (by decide)]
    decide
  · rw [(c7_interval_priority "100~120").2 (by decide) (by decide)]
    decide

/-- Helper: the amended fallback is the map of the per-base interval over the
filtered bases. -/
theorem fallbackAmendedC2_eq_map (toks : List ℚ) :
    fallbackAmendedC2 toks =
      (toks.filter (fun v => decide (v > 10))).map
        (baseInterval (toks.filter (fun v => decide (|v| < 10)))) := by
  unfold fallbackAmendedC2
  apply List.map_congr_left
  intro b _
  rw [baseInterval_desc]

/-- C2, amended: for every spec segment with no plus-minus match and no tilde
range passing the magnitude guard, the parser emits exactly the intervals of
fallbackAmendedC2 over the signed tokens: bases are the tokens of signed
value above 10, offsets those of magnitude below 10, a base without offsets
gives the degenerate interval, and with exactly one offset the base itself
joins the endpoint set. -/
theorem c2_fallback_amended (part : String)
    (hpm : findPM (cleanPart part) = [])
    (htl : tildeValidOf (findTilde (cleanPart part)) = []) :
    processSegment part = fallbackAmendedC2 ((findSigned (cleanPart part)).map parseTok) := by
  by_cases hc : cleanPart part = ""
  · have h1 : processSegment part = [] := by
      unfold processSegment
      simp [hc]
    rw [h1, hc]
    decide
  · unfold processSegment
    simp [hc, hpm, htl, splitBO_eq]
    by_cases ht : findSigned (cleanPart part) = []
    · simp [ht, fallbackAmendedC2]
    · rw [if_neg ht, fallbackAmendedC2_eq_map]

/-- C2, amended witness: the theorem applied to the fallback segment
160-0.05, with the emitted interval evaluated. -/
theorem c2_fallback_amended_witness :
    processSegment "160-0.05" =
      fallbackAmendedC2 ((findSigned (cleanPart "160-0.05")).map parseTok) ∧
    fallbackAmendedC2 ((findSigned (cleanPart "160-0.05")).map parseTok) =
      [(159.95, 160)] :=
  ⟨c2_fallback_amended "160-0.05" (by decide) (by decide), by decide⟩

/-- Helper: every issue of the job-format check carries the format-error
type. -/
theorem headerJobIssues_types (j : String) :
    ∀ i ∈ headerJobIssues j, i.issue_type = "⚠️ 格式錯誤" := by
  intro i hi
  unfold headerJobIssues at hi
  split_ifs at hi with h1
  · simp at hi
    rw [hi.2]
  · simp at hi

/-- C4, amended: for every header whose scheduled and actual dates both parse
in the YYYY/MM/DD form, the header checker raises the late-delivery issue if
and only if the actual date is strictly later than the scheduled date. -/
theorem c4_date_issue_iff_late (jobNo dSch dAct : String) (ps pa : ℕ × ℕ × ℕ)
    (hs : parseDate dSch = some ps) (ha : parseDate dAct = some pa) :
    ((pythonHeaderAuditAI jobNo dSch dAct).any
      (fun i => i.issue_type == "⏰ 逾期交貨")) = true ↔ dateLt ps pa = true := by
  have hsu : dSch ≠ "Unknown" := by
    intro h
    rw [h, show parseDate "Unknown" = none from by decide] at hs
    exact Option.noConfusion hs
  have hau : dAct ≠ "Unknown" := by
    intro h
    rw [h, show parseDate "Unknown" = none from by decide] at ha
    exact Option.noConfusion ha
  unfold pythonHeaderAuditAI
  rw [List.any_append]
  have hj : (headerJobIssues jobNo).any (fun i => i.issue_type == "⏰ 逾期交貨") = false := by
    rw [List.any_eq_false]
    intro i hi
    rw [headerJobIssues_types jobNo i hi]
    decide
  rw [hj]
  rw [Bool.false_or]
  unfold headerDateIssues
  rw [if_pos (And.intro hsu hau), hs, ha]
  by_cases hlt : dateLt ps pa = true
  · simp [hlt, lateIssue]
  · simp [hlt]

/-- C4, amended witness: an actual date five days late raises the issue. -/
theorem c4_date_issue_iff_late_witness :
    ((pythonHeaderAuditAI "W1234567AB" "2024/01/10" "2024/01/15").any
      (fun i => i.issue_type == "⏰ 逾期交貨")) = true :=
  (c4_date_issue_iff_late "W1234567AB" "2024/01/10" "2024/01/15" (2024, 1, 10) (2024, 1, 15)
    (by decide) (by decide)).mpr (by decide)

/-- Helper: ascending insertion never yields the empty list. -/
theorem insNat_ne_nil (x : ℕ) (l : List ℕ) : insNat x l ≠ [] := by
  cases l with
  | nil => simp [insNat]
  | cons y rest =>
    unfold insNat
    split_ifs <;> simp

/-- Helper: sorting a nonempty list yields a nonempty list. -/
theorem sortNatList_ne_nil (a : ℕ) (l : List ℕ) : sortNatList (a :: l) ≠ [] := by
  unfold sortNatList
  rw [List.foldr_cons]
  exact insNat_ne_nil a _

/-- C5, amended: the completeness check applies to every key with at least
one recorded stage: a traceability-gap issue is emitted for the key exactly
when some stage at least 1 and strictly below the maximum present stage is
missing from its history (there is no two-stage minimum). -/
theorem c5_gap_iff_missing (key : ProcKey) (sd : List (ℕ × StageInfo)) (hne : sd ≠ []) :
    (gapIssuesOf key sd ≠ [] ↔
      ∃ s, 1 ≤ s ∧ s < (sortNatList (sd.map (fun e => e.1))).getLastD 0 ∧
        (sd.map (fun e => e.1)).contains s = false) := by
  obtain ⟨p, rest, hsd⟩ : ∃ p rest, sd = p :: rest := by
    cases sd with
    | nil => exact absurd rfl hne
    | cons p rest => exact ⟨p, rest, rfl⟩
  subst hsd
  have hnn : sortNatList ((p :: rest).map (fun e => e.1)) ≠ [] := by
    rw [List.map_cons]
    exact sortNatList_ne_nil _ _
  obtain ⟨m, hm⟩ : ∃ m, (sortNatList ((p :: rest).map (fun e => e.1))).getLast? = some m := by
    cases hgl : (sortNatList ((p :: rest).map (fun e => e.1))).getLast? with
    | none => exact absurd (List.getLast?_eq_none_iff.mp hgl) hnn
    | some m => exact ⟨m, rfl⟩
  have hgd : (sortNatList ((p :: rest).map (fun e => e.1))).getLastD 0 = m := by
    rw [List.getLastD_eq_getLast?, hm]
    rfl
  unfold gapIssuesOf
  rw [hgd]
  simp only [hm]
  by_cases hmiss : (List.range' 1 (m - 1)).filter
      (fun s => ! ((p :: rest).map (fun e => e.1)).contains s) = []
  · rw [hmiss]
    simp only [List.map_nil, ne_eq, not_true_eq_false, if_neg, if_false]
    constructor
    · intro h
      simp at h
    · rintro ⟨s, h1, h2, h3⟩
      have hmem : s ∈ (List.range' 1 (m - 1)).filter
          (fun s => ! ((p :: rest).map (fun e => e.1)).contains s) := by
        rw [List.mem_filter]
        constructor
        · rw [List.mem_range'_1]
          omega
        · rw [Bool.not_eq_true']
          exact h3
      rw [hmiss] at hmem
      exact absurd hmem (List.not_mem_nil s)
  · have hmap : (((List.range' 1 (m - 1)).filter
        (fun s => ! ((p :: rest).map (fun e => e.1)).contains s)).map stageMapName) ≠ [] := by
      intro hx
      rw [List.map_eq_nil_iff] at hx
      exact hmiss hx
    rw [if_pos hmap]
    constructor
    · intro _
      obtain ⟨s, hsm⟩ := List.exists_mem_of_ne_nil _ hmiss
      rw [List.mem_filter, List.mem_range'_1] at hsm
      refine ⟨s, ?_, ?_, ?_⟩
      · omega
      · omega
      · rw [← Bool.not_eq_true']
        exact hsm.2
    · intro _
      simp

/-- C5, amended witness: the single-stage history of the counterexample item
does emit a gap issue, through the theorem. -/
theorem c5_gap_iff_missing_witness :
    gapIssuesOf ("V1", "本體") [(3, ⟨100, "1", "本體再生車修"⟩)] ≠ [] :=
  (c5_gap_iff_missing ("V1", "本體") [(3, ⟨100, "1", "本體再生車修"⟩)] (by decide)).mpr
    ⟨1, by decide, by decide, by decide⟩

/-- C8: the classifier equals the decision list of the specification, for
every rule table, every similarity oracle and every title: balancing or
heat-treatment vocabulary wins first with exempt regardless of the rule
table; otherwise a rule-table hit whose tokens map to a category decides;
otherwise the keyword fallback with its strict precedence (weld, then
non-reconditioned split on journal vocabulary, then regen/finishing/assembly,
else unknown) decides. -/
theorem c8_classifier_order (rules : List (String × String)) (fzP : String → String → ℕ)
    (item_title : String) :
    assign_category_by_python rules fzP item_title = classifierSpec rules fzP item_title := by
  unfold assign_category_by_python classifierSpec
  by_cases hb : anyKw (classifierT item_title) balHeatKws
  · rw [if_pos hb, if_pos hb]
  · rw [if_neg hb, if_neg hb]
    cases hf : forcedRuleOf rules fzP (cleanText item_title) with
    | none => rfl
    | some fr0 =>
      unfold tokenCat
      simp only [Option.some_bind]
      split_ifs <;> rfl

/-- Helper: each stored key is the consolidation key of its stored card. -/
theorem consUpsert_key_inv (i : Issue) :
    ∀ m : List (CKey × (Issue × List String)),
      (∀ kv ∈ m, cKeyOf kv.2.1 = kv.1) → ∀ kv ∈ consUpsert i m, cKeyOf kv.2.1 = kv.1 := by
  intro m
  induction m with
  | nil =>
    intro _ kv hkv
    simp [consUpsert] at hkv
    subst hkv
    rfl
  | cons hd tl ih =>
    obtain ⟨k, c⟩ := hd
    intro hinv kv hkv
    unfold consUpsert at hkv
    by_cases hk : k = cKeyOf i
    · rw [if_pos hk] at hkv
      rcases List.mem_cons.mp hkv with h | h
      · subst h
        show cKeyOf { c.1 with failures := c.1.failures ++ i.failures } = k
        have := hinv (k, c) (by simp)
        exact this
      · exact hinv kv (by simp [h])
    · rw [if_neg hk] at hkv
      rcases List.mem_cons.mp hkv with h | h
      · subst h
        exact hinv (k, c) (by simp)
      · exact ih (fun kv2 hkv2 => hinv kv2 (by simp [hkv2])) kv h

/-- Helper: the stored keys after an upsert, depending on key presence. -/
theorem consUpsert_keys (i : Issue) :
    ∀ m : List (CKey × (Issue × List String)),
      (consUpsert i m).map Prod.fst =
        if cKeyOf i ∈ m.map Prod.fst then m.map Prod.fst
        else m.map Prod.fst ++ [cKeyOf i] := by
  intro m
  induction m with
  | nil => rfl
  | cons hd tl ih =>
    obtain ⟨k, c⟩ := hd
    unfold consUpsert
    by_cases hk : k = cKeyOf i
    · rw [if_pos hk]
      have hmem : cKeyOf i ∈ ((k, c) :: tl).map Prod.fst := by
        simp [hk.symm]
      rw [if_pos hmem]
      simp
    · rw [if_neg hk]
      by_cases hmem : cKeyOf i ∈ tl.map Prod.fst
      · have hmem2 : cKeyOf i ∈ ((k, c) :: tl).map Prod.fst := by simp [hmem]
        rw [if_pos hmem2]
        simp only [List.map_cons]
        rw [ih, if_pos hmem]
      · have hmem2 : cKeyOf i ∉ ((k, c) :: tl).map Prod.fst := by
          simp only [List.map_cons, List.mem_cons]
          rintro (h | h)
          · exact hk h.symm
          · exact hmem h
        rw [if_neg hmem2]
        simp only [List.map_cons]
        rw [ih, if_neg hmem]
        simp

/-- Helper: an upsert preserves distinctness of the stored keys. -/
theorem consUpsert_nodup (i : Issue) (m : List (CKey × (Issue × List String)))
    (h : (m.map Prod.fst).Nodup) : ((consUpsert i m).map Prod.fst).Nodup := by
  rw [consUpsert_keys]
  split_ifs with hk
  · exact h
  · simp [List.nodup_append, h, hk]

/-- Helper: upserting an absent key appends the fresh card at the end. -/
theorem consUpsert_absent (i : Issue) :
    ∀ m : List (CKey × (Issue × List String)),
      cKeyOf i ∉ m.map Prod.fst → consUpsert i m = m ++ [(cKeyOf i, (i, [i.page]))] := by
  intro m
  induction m with
  | nil => intro _; rfl
  | cons hd tl ih =>
    obtain ⟨k, c⟩ := hd
    intro h
    have hk : ¬ k = cKeyOf i := by
      intro he
      exact h (by simp [he])
    unfold consUpsert
    rw [if_neg hk, ih (fun hx => h (by simp [hx]))]
    simp

/-- Helper: the fold invariant that every stored key is its card key. -/
theorem consFold_inv (issues : List Issue) :
    ∀ m₀, (∀ kv ∈ m₀, cKeyOf kv.2.1 = kv.1) →
      ∀ kv ∈ issues.foldl (fun m i => consUpsert i m) m₀, cKeyOf kv.2.1 = kv.1 := by
  induction issues with
  | nil => intro m₀ h; exact h
  | cons hd tl ih =>
    intro m₀ h
    rw [List.foldl_cons]
    exact ih _ (consUpsert_key_inv hd m₀ h)

/-- Helper: the fold preserves distinctness of the stored keys. -/
theorem consFold_nodup (issues : List Issue) :
    ∀ m₀, (m₀.map Prod.fst).Nodup →
      ((issues.foldl (fun m i => consUpsert i m) m₀).map Prod.fst).Nodup := by
  induction issues with
  | nil => intro m₀ h; exact h
  | cons hd tl ih =>
    intro m₀ h
    rw [List.foldl_cons]
    exact ih _ (consUpsert_nodup hd m₀ h)

/-- Helper: folding a key-distinct issue list over a map disjoint from its
keys appends one fresh card per issue, in order. -/
theorem consFold_distinct :
    ∀ (ys : List Issue) (m₀ : List (CKey × (Issue × List String))),
      (∀ y ∈ ys, cKeyOf y ∉ m₀.map Prod.fst) → (ys.map cKeyOf).Nodup →
      ys.foldl (fun m i => consUpsert i m) m₀ =
        m₀ ++ ys.map (fun y => (cKeyOf y, (y, [y.page]))) := by
  intro ys
  induction ys with
  | nil =>
    intro m₀ _ _
    simp
  | cons hd tl ih =>
    intro m₀ hdisj hnd
    rw [List.foldl_cons, consUpsert_absent hd m₀ (hdisj hd (by simp))]
    rw [List.map_cons, List.nodup_cons] at hnd
    rw [ih (m₀ ++ [(cKeyOf hd, (hd, [hd.page]))]) ?_ hnd.2]
    · simp
    · intro y hy
      rw [List.map_append, List.mem_append]
      rintro (h | h)
      · exact hdisj y (by simp [hy]) h
      · simp at h
        exact hnd.1 (h ▸ List.mem_map_of_mem cKeyOf hy)

/-- Helper: rendering a fresh single-page card returns the issue itself. -/
theorem consFinalize_single (y : Issue) : consFinalize (cKeyOf y, (y, [y.page])) = y := rfl

/-- C9: issue consolidation is idempotent: consolidating an
already-consolidated list yields exactly the same list (here even the page
strings are unchanged, since each consolidated card re-joins its own
singleton page set). -/
theorem c9_consolidate_idempotent (issues : List Issue) :
    consolidate_issues (consolidate_issues issues) = consolidate_issues issues := by
  unfold consolidate_issues
  have hinv : ∀ kv ∈ issues.foldl (fun m i => consUpsert i m) [], cKeyOf kv.2.1 = kv.1 :=
    consFold_inv issues [] (by simp)
  have hnd : ((issues.foldl (fun m i => consUpsert i m) []).map Prod.fst).Nodup :=
    consFold_nodup issues [] (by simp)
  have hkeys : (((issues.foldl (fun m i => consUpsert i m) []).map consFinalize).map cKeyOf) =
      (issues.foldl (fun m i => consUpsert i m) []).map Prod.fst := by
    rw [List.map_map]
    apply List.map_congr_left
    intro kv hkv
    show cKeyOf (consFinalize kv) = kv.1
    rw [← hinv kv hkv]
    rfl
  have hnd2 : ((((issues.foldl (fun m i => consUpsert i m) []).map consFinalize).map
      cKeyOf)).Nodup := by
    rw [hkeys]
    exact hnd
  rw [consFold_distinct ((issues.foldl (fun m i => consUpsert i m) []).map consFinalize) []
    (by simp) hnd2]
  rw [List.nil_append, List.map_map]
  have : (consFinalize ∘ fun y => (cKeyOf y, (y, [y.page]))) = id := by
    funext y
    exact consFinalize_single y
  rw [this, List.map_id]

/-- Helper: no branch of the category chain resets a failed verdict state to
passed. -/
theorem entryBranch_passed (lt ct : String) (cleanStd : List ℚ) (sRanges : List (ℚ × ℚ))
    (urt : Option ℚ) (i2 ip : Bool) (val : ℚ) (st0 : Bool × String × String) :
    (entryBranch lt ct cleanStd sRanges urt i2 ip val st0).2.1 = true → st0.1 = true := by
  intro h
  unfold entryBranch at h
  split_ifs at h <;> simp_all

/-- Helper: a measurement carrying the damage sentinel, in a category whose
logic type is not skip-exempt, always produces a failure verdict with the
sentinel as its recorded value. -/
theorem processEntry_damaged (lt cat title : String) (cleanStd : List ℚ)
    (sRanges : List (ℚ × ℚ)) (urt : Option ℚ) (valRaw : String)
    (hbad : strContains valRaw "[!]" = true)
    (h1 : strContains (pyUpper lt) "SKIP" = false)
    (h2 : strContains (pyUpper lt) "EXEMPT" = false) :
    ∃ v, processEntry lt cat title cleanStd sRanges urt valRaw = some v ∧
      v.valStr = "[!]" := by
  have hskip : ¬ (valRaw = "" ∨ valRaw = "N/A" ∨ valRaw = "nan" ∨ valRaw = "M10") := by
    rintro (h | h | h | h) <;> (subst h; exact absurd hbad (by decide))
  have hres : (entryBranch lt (cat ++ title) cleanStd sRanges urt true true (-999)
      (false, "🛑數據損壞(壞軌)", "N/A")).2.1 = false := by
    cases hx : (entryBranch lt (cat ++ title) cleanStd sRanges urt true true (-999)
        (false, "🛑數據損壞(壞軌)", "N/A")).2.1 with
    | false => rfl
    | true =>
      have := entryBranch_passed lt (cat ++ title) cleanStd sRanges urt true true (-999)
        (false, "🛑數據損壞(壞軌)", "N/A") hx
      simp at this
  unfold processEntry
  rw [if_neg hskip]
  simp only [hbad, if_true, Bool.or_eq_true, h1, h2, Bool.false_or, Bool.false_eq_true,
    if_false, if_pos]
  simp only [hres, Bool.false_eq_true, if_false]
  exact ⟨_, rfl, rfl⟩

/-- Helper: an upsert preserves the presence of a sentinel evidence row. -/
theorem rowInG_gUpsert_mono (key : GKey) (mk : Issue) (row : Row) (rid : String) :
    ∀ g, rowInG g rid → rowInG (gUpsert key mk row g) rid := by
  intro g
  induction g with
  | nil =>
    rintro ⟨kv, hkv, _⟩
    simp at hkv
  | cons hd tl ih =>
    obtain ⟨k, iss⟩ := hd
    rintro ⟨kv, hkv, row2, hrow2, hpair⟩
    unfold gUpsert
    by_cases hk : k = key
    · rw [if_pos hk]
      rcases List.mem_cons.mp hkv with h | h
      · refine ⟨(k, { iss with failures := iss.failures ++ [row] }), by simp, row2, ?_, hpair⟩
        have : row2 ∈ iss.failures := by
          rw [h] at hrow2
          exact hrow2
        exact List.mem_append_left _ this
      · exact ⟨kv, by simp [h], row2, hrow2, hpair⟩
    · rw [if_neg hk]
      rcases List.mem_cons.mp hkv with h | h
      · exact ⟨kv, by simp [h], row2, hrow2, hpair⟩
      · obtain ⟨kv2, hkv2, r3, hr3, hp3⟩ := ih ⟨kv, h, row2, hrow2, hpair⟩
        exact ⟨kv2, by simp [hkv2], r3, hr3, hp3⟩

/-- Helper: upserting a row that carries the sentinel id and value makes it
present in the map. -/
theorem rowInG_gUpsert_self (key : GKey) (mk : Issue) (row : Row) (rid : String)
    (hid : ("id", Cell.s rid) ∈ row) (hval : ("val", Cell.s "[!]") ∈ row) :
    ∀ g, rowInG (gUpsert key mk row g) rid := by
  intro g
  induction g with
  | nil =>
    exact ⟨(key, { mk with failures := [row] }), by simp [gUpsert], row, by simp, hid, hval⟩
  | cons hd tl ih =>
    obtain ⟨k, iss⟩ := hd
    unfold gUpsert
    by_cases hk : k = key
    · rw [if_pos hk]
      exact ⟨(k, { iss with failures := iss.failures ++ [row] }), by simp, row, by simp,
        hid, hval⟩
    · rw [if_neg hk]
      obtain ⟨kv, hkv, r, hr, hp⟩ := ih
      exact ⟨kv, by simp [hkv], r, hr, hp⟩

/-- Helper: the per-entry step preserves the presence of a sentinel row. -/
theorem rowInG_auditEntryStep_mono (lt cat title page : String) (cleanStd : List ℚ)
    (sRanges : List (ℚ × ℚ)) (urt : Option ℚ) (rid : String) (g : GMap)
    (entry : List String) (h : rowInG g rid) :
    rowInG (auditEntryStep lt cat title page cleanStd sRanges urt g entry) rid := by
  unfold auditEntryStep
  by_cases hlen : entry.length < 2
  · rw [if_pos hlen]
    exact h
  · rw [if_neg hlen]
    cases hpe : processEntry lt cat title cleanStd sRanges urt
        (pyReplace (pyStrip (entry.getD 1 "")) " " "") with
    | none => exact h
    | some v => exact rowInG_gUpsert_mono _ _ _ rid g h

/-- Helper: folding steps that preserve a predicate preserves it. -/
theorem rowInG_foldl {α : Type} (rid : String) (f : GMap → α → GMap)
    (hf : ∀ g e, rowInG g rid → rowInG (f g e) rid) :
    ∀ (l : List α) (g : GMap), rowInG g rid → rowInG (l.foldl f g) rid := by
  intro l
  induction l with
  | nil => intro g h; exact h
  | cons e tl ih =>
    intro g h
    rw [List.foldl_cons]
    exact ih (f g e) (hf g e h)

/-- Helper: when some element of the fold establishes the predicate and every
step preserves it, the whole fold establishes it. -/
theorem rowInG_foldl_hit {α : Type} (rid : String) (f : GMap → α → GMap)
    (hmono : ∀ g e, rowInG g rid → rowInG (f g e) rid)
    (x : α) (hhit : ∀ g, rowInG (f g x) rid) :
    ∀ (l : List α), x ∈ l → ∀ g, rowInG (l.foldl f g) rid := by
  intro l
  induction l with
  | nil =>
    intro h
    simp at h
  | cons e tl ih =>
    intro hmem g
    rw [List.foldl_cons]
    rcases List.mem_cons.mp hmem with h | h
    · subst h
      exact rowInG_foldl rid f hmono tl (f g x) (hhit g)
    · exact ih h (f g e)

/-- Helper: the per-entry step on a sentinel-carrying well-formed entry
establishes the sentinel row, whatever the incoming map. -/
theorem rowInG_auditEntryStep_hit (lt cat title page : String) (cleanStd : List ℚ)
    (sRanges : List (ℚ × ℚ)) (urt : Option ℚ) (entry : List String)
    (hbad : strContains (pyReplace (pyStrip (entry.getD 1 "")) " " "") "[!]" = true)
    (h1 : strContains (pyUpper lt) "SKIP" = false)
    (h2 : strContains (pyUpper lt) "EXEMPT" = false)
    (hlen : ¬ entry.length < 2) :
    ∀ g, rowInG (auditEntryStep lt cat title page cleanStd sRanges urt g entry)
      (pyReplace (pyStrip (entry.headD "")) " " "") := by
  intro g
  obtain ⟨v, hv, hvs⟩ := processEntry_damaged lt cat title cleanStd sRanges urt
    (pyReplace (pyStrip (entry.getD 1 "")) " " "") hbad h1 h2
  unfold auditEntryStep
  rw [if_neg hlen]
  simp only [hv]
  apply rowInG_gUpsert_self
  · simp
  · rw [hvs]
    simp

/-- Helper: the per-item pass preserves the presence of a sentinel row. -/
theorem rowInG_auditDimItem_mono (rules : List (String × String)) (fz : String → String → ℕ)
    (thr : ℕ) (item : DimItem) (rid : String) :
    ∀ g, rowInG g rid → rowInG (auditDimItem rules fz thr item g) rid := by
  intro g h
  unfold auditDimItem
  split_ifs with hds hkw hrl
  · exact h
  · exact h
  · exact h
  · exact rowInG_foldl rid _
      (fun g2 e => rowInG_auditEntryStep_mono _ _ _ _ _ _ _ rid g2 e) _ g h

/-- C3, amended: a measurement whose raw value carries the damage sentinel,
inside any audited item (non-exempt by keyword or rule, with a logic type
that is not skip-exempt), always contributes an evidence row with the
sentinel as its value to the engine output — it is never silently dropped,
whatever the rule table, the similarity oracle, the other items and the
other measurements. -/
theorem c3_damaged_always_reported (rules : List (String × String))
    (fz : String → String → ℕ) (thr : ℕ) (dimension_data : List DimItem) (item : DimItem)
    (entry : List String)
    (hmem : item ∈ dimension_data)
    (hds : ¬ item.ds = "")
    (hkw : ¬ anyKw (pyUpper (pyReplace (pyReplace item.item_title " " "") "\"" ""))
      exemptKwsUpper = true)
    (hrule : ¬ (match resolveRule fz thr rules
        (pyStrip (pyReplace (pyReplace item.item_title " " "") "\"" "")) with
      | some u => isRuleExemptLocal u
      | none => false) = true)
    (hent : entry ∈ (pySplit item.ds "|").filterMap (fun p =>
      if strContains p ":" then some (pySplit p ":") else none))
    (hlen : ¬ entry.length < 2)
    (hbad : strContains (pyReplace (pyStrip (entry.getD 1 "")) " " "") "[!]" = true)
    (h1 : strContains (pyUpper item.sl.lt) "SKIP" = false)
    (h2 : strContains (pyUpper item.sl.lt) "EXEMPT" = false) :
    hasBadRow (pythonNumericalAudit rules fz thr dimension_data)
      (pyReplace (pyStrip (entry.headD "")) " " "") := by
  have hitem : ∀ g, rowInG (auditDimItem rules fz thr item g)
      (pyReplace (pyStrip (entry.headD "")) " " "") := by
    intro g
    unfold auditDimItem
    rw [if_neg hds, if_neg hkw, if_neg hrule]
    exact rowInG_foldl_hit _ _
      (fun g2 e => rowInG_auditEntryStep_mono _ _ _ _ _ _ _ _ g2 e)
      entry (rowInG_auditEntryStep_hit _ _ _ _ _ _ _ entry hbad h1 h2 hlen) _ hent g
  have hall : rowInG (dimension_data.foldl (fun g it => auditDimItem rules fz thr it g) [])
      (pyReplace (pyStrip (entry.headD "")) " " "") :=
    rowInG_foldl_hit _ (fun g it => auditDimItem rules fz thr it g)
      (fun g it h => rowInG_auditDimItem_mono rules fz thr it _ g h) item
      (fun g => hitem g) dimension_data hmem []
  unfold pythonNumericalAudit
  obtain ⟨kv, hkv, row, hrow, hp⟩ := hall
  exact ⟨kv.2, List.mem_map_of_mem _ hkv, row, hrow, hp⟩

/-- C3, amended witness: the damaged measurement of the range item is
reported, through the theorem. -/
theorem c3_damaged_always_reported_witness :
    hasBadRow (pythonNumericalAudit [] fzZero 70 [itemDamagedRange]) "A1" := by
  have e : pyReplace (pyStrip ((["A1", "[!]"] : List String).headD "")) " " "" = "A1" := by
    decide
  have h := c3_damaged_always_reported [] fzZero 70 [itemDamagedRange] itemDamagedRange
    ["A1", "[!]"] (by decide) (by decide) (by decide) (by decide) (by decide) (by decide)
    (by decide) (by decide) (by decide)
  rw [e] at h
  exact h

/-- Helper: inversion of a successful Except bind. -/
theorem except_bind_eq_ok {α β : Type} (x : Except PyErr α) (f : α → Except PyErr β) (b : β)
    (h : x >>= f = .ok b) : ∃ a, x = .ok a ∧ f a = .ok b := by
  cases x with
  | error e => exact Except.noConfusion h
  | ok a => exact ⟨a, rfl, h⟩

/-- Helper: a monadic fold over Except preserves an invariant that each
successful step preserves. -/
theorem foldlM_except_inv {α β : Type} (f : β → α → Except PyErr β) (P : β → Prop) :
    ∀ l : List α, (∀ b a r, a ∈ l → f b a = .ok r → P b → P r) →
      ∀ b r, l.foldlM f b = .ok r → P b → P r := by
  intro l
  induction l with
  | nil =>
    intro _ b r h hb
    simp only [List.foldlM_nil] at h
    exact Except.ok.inj h ▸ hb
  | cons a tl ih =>
    intro hstep b r h hb
    rw [List.foldlM_cons] at h
    obtain ⟨b2, hf, h2⟩ := except_bind_eq_ok _ _ _ h
    exact ih (fun b3 a3 r3 hm => hstep b3 a3 r3 (List.mem_cons_of_mem a hm)) b2 r h2
      (hstep b a b2 (List.mem_cons_self a tl) hf hb)

/-- Helper: the summary pass only raises table-mismatch issues beyond what it
receives. -/
theorem phase1Row_no_local (acc : List Issue × List (String × Bucket)) (srow : SummaryRow)
    (r : List Issue × List (String × Bucket)) (h : phase1Row acc srow = .ok r)
    (hp : ∀ i ∈ acc.1, i.issue_type ≠ "🛑 統計不符(單項)") :
    ∀ i ∈ r.1, i.issue_type ≠ "🛑 統計不符(單項)" := by
  unfold phase1Row at h
  split at h
  · rw [Except.ok.injEq] at h
    subst h
    intro i hi
    split at hi
    · rcases List.mem_append.mp hi with h2 | h2
      · exact hp i h2
      · simp at h2
        rw [h2]
        show "🚨 總表數量異常" ≠ "🛑 統計不符(單項)"
        decide
    · exact hp i hi
  · exact Except.noConfusion h

/-- Helper: every settlement issue carries the aggregate-mismatch type. -/
theorem settlement_types (tr : List (String × Bucket)) :
    ∀ i ∈ settlement tr, i.issue_type = "🛑 明細匯總不符" := by
  intro i hi
  unfold settlement at hi
  rcases List.mem_filterMap.mp hi with ⟨sb, _, hsb⟩
  split at hsb
  · rw [Option.some.injEq] at hsb
    rw [← hsb]
  · cases hsb

/-- Helper: an item whose parsed title target is zero contributes no
local-quantity-mismatch issue in its pass. -/
theorem phase2Item_no_local (rules : List (String × RuleSet)) (fzT fzP : String → String → ℕ)
    (thr : ℕ) (st : List Issue × List (String × Bucket) × HitsLog) (item : DimItem)
    (r : List Issue × List (String × Bucket) × HitsLog)
    (htz : safeFloat item.item_pc_target = SF.num 0)
    (h : phase2Item rules fzT fzP thr st item = .ok r)
    (hp : ∀ i ∈ st.1, i.issue_type ≠ "🛑 統計不符(單項)") :
    ∀ i ∈ r.1, i.issue_type ≠ "🛑 統計不符(單項)" := by
  simp only [phase2Item, htz, lt_self_iff_false, and_false, if_false, ite_self,
    List.append_nil] at h
  split at h
  · exact Except.noConfusion h
  · rw [Except.ok.injEq] at h
    subst h
    intro i hi
    rcases List.mem_append.mp hi with h2 | h2
    · exact hp i h2
    · split at h2
      · rcases List.mem_filterMap.mp h2 with ⟨rc, _, hrc⟩
        split at hrc
        · rw [Option.some.injEq] at hrc
          rw [← hrc]
          show "⚠️編號重複(本體)" ≠ "🛑 統計不符(單項)"
          decide
        · cases hrc
      · split at h2
        · rcases List.mem_filterMap.mp h2 with ⟨rc, _, hrc⟩
          split at hrc
          · rw [Option.some.injEq] at hrc
            rw [← hrc]
            show "⚠️編號重複(軸頸)" ≠ "🛑 統計不符(單項)"
            decide
          · cases hrc
        · exact absurd h2 (List.not_mem_nil i)

/-- C10: the accounting engine emits a local-quantity-mismatch issue only
for items with a strictly positive title-declared target: whenever every
item title parses to target 0 and the engine returns issues, none of them is
a local-quantity mismatch, regardless of the computed actual quantities, the
summary rows, the rule table or the similarity oracles. -/
theorem c10_no_local_issue_when_target_zero (rules : List (String × RuleSet))
    (fzT fzP : String → String → ℕ) (thr : ℕ) (dimension_data : List DimItem)
    (summary_rows : List SummaryRow) (issues : List Issue)
    (htargets : ∀ item ∈ dimension_data, safeFloat item.item_pc_target = SF.num 0)
    (hok : pythonAccountingAudit rules fzT fzP thr dimension_data summary_rows = .ok issues) :
    ∀ i ∈ issues, i.issue_type ≠ "🛑 統計不符(單項)" := by
  unfold pythonAccountingAudit at hok
  obtain ⟨p1, hf1, hok⟩ := except_bind_eq_ok _ _ _ hok
  obtain ⟨p2, hf2, hok⟩ := except_bind_eq_ok _ _ _ hok
  have hiss : (if p2.2.2 ≠ [] then (p2.1 ++ settlement p2.2.1) ++ [hiddenIssue p2.2.2 thr]
      else p2.1 ++ settlement p2.2.1) = issues := Except.ok.inj hok
  have hp1 : ∀ i ∈ p1.1, i.issue_type ≠ "🛑 統計不符(單項)" :=
    foldlM_except_inv phase1Row (fun st => ∀ i ∈ st.1, i.issue_type ≠ "🛑 統計不符(單項)")
      summary_rows (fun b a r _ hr hb => phase1Row_no_local b a r hr hb)
      ([], []) p1 hf1 (by simp)
  have hp2 : ∀ i ∈ p2.1, i.issue_type ≠ "🛑 統計不符(單項)" :=
    foldlM_except_inv (phase2Item rules fzT fzP thr)
      (fun st => ∀ i ∈ st.1, i.issue_type ≠ "🛑 統計不符(單項)")
      dimension_data
      (fun b a r hm hr hb => phase2Item_no_local rules fzT fzP thr b a r (htargets a hm) hr hb)
      (p1.1, p1.2, []) p2 hf2 hp1
  subst hiss
  intro i hi
  split at hi
  · rcases List.mem_append.mp hi with h2 | h2
    · rcases List.mem_append.mp h2 with h3 | h3
      · exact hp2 i h3
      · rw [settlement_types p2.2.1 i h3]
        decide
    · simp at h2
      rw [h2]
      show "HIDDEN_DATA" ≠ "🛑 統計不符(單項)"
      decide
  · rcases List.mem_append.mp hi with h2 | h2
    · exact hp2 i h2
    · rw [settlement_types p2.2.1 i h2]
      decide

/-- C10, witness: a run with a mismatching summary row and a zero-target item
returns a nonempty issue list (a table mismatch and a settlement mismatch)
and none of its members is a local mismatch, through the theorem. -/
theorem c10_no_local_issue_when_target_zero_witness :
    ∃ issues, pythonAccountingAudit [] fzZero fzZero 70 [itemZeroTarget] [rowMismatch] =
      .ok issues ∧ issues ≠ [] ∧ ∀ i ∈ issues, i.issue_type ≠ "🛑 統計不符(單項)" := by
  have hok : pythonAccountingAudit [] fzZero fzZero 70 [itemZeroTarget] [rowMismatch] =
      .ok ((pythonAccountingAudit [] fzZero fzZero 70 [itemZeroTarget]
        [rowMismatch]).toOption.getD []) := by decide
  exact ⟨_, hok, by decide,
    c10_no_local_issue_when_target_zero [] fzZero fzZero 70 [itemZeroTarget] [rowMismatch] _
      (by decide) hok⟩

end RollAudit
